import Mathlib

/-!
Verification development for the story_agent chapter-generation and
world-state consistency engine.  The Python sources under
`src/generation/chapter.py`, `src/generation/services/chapter_workflow.py`
and `src/interactive/workflow.py` are shallowly embedded below: loosely
typed JSON dictionaries become Lean structures, in-place mutation becomes
explicit state passing, and every helper keeps the name of the Python
function it translates.
-/

namespace StoryAgent

/-! ### Generic string helpers (Python `in`, `str.strip`, list dedup) -/

/-- Leading-match test on character lists (Python `str.startswith` on the
underlying characters). -/
def leadsChars : List Char → List Char → Bool
  | [], _ => true
  | _ :: _, [] => false
  | a :: as, b :: bs => a = b && leadsChars as bs

/-- Substring-occurrence test on character lists, mirroring Python's
`needle in haystack` for strings. -/
def occursChars (needle : List Char) : List Char → Bool
  | [] => needle.isEmpty
  | b :: bs => leadsChars needle (b :: bs) || occursChars needle bs

/-- Python `needle in haystack` for strings. -/
def containsSub (needle hay : String) : Bool :=
  occursChars needle.data hay.data

/-- Strip a literal leading marker from a character list, or fail. -/
def stripLead : List Char → List Char → Option (List Char)
  | [], cs => some cs
  | _ :: _, [] => none
  | p :: ps, c :: cs => if p = c then stripLead ps cs else none

/-- Python `str.startswith` on strings. -/
def strStarts (pre s : String) : Bool :=
  leadsChars pre.data s.data

/-- Python `str.strip()` on the underlying characters (drop leading and
trailing whitespace).  Structural-recursive stand-in for `(pyStrip String)`,
kept kernel-computable. -/
def trimChars (cs : List Char) : List Char :=
  ((cs.dropWhile Char.isWhitespace).reverse.dropWhile Char.isWhitespace).reverse

/-- Python `str.strip()`. -/
def pyStrip (s : String) : String :=
  String.mk (trimChars s.data)

/-- Python `str.lower()` (ASCII case folding, like the statuses compared). -/
def pyLower (s : String) : String :=
  String.mk (s.data.map Char.toLower)

/-- Python `s[:n]` (first `n` characters). -/
def pySlice (n : Nat) (s : String) : String :=
  String.mk (s.data.take n)

/-- Split a character list on a single separator character (Python
`str.split(sep)` for the one-character separators the code uses). -/
def charSplit (c : Char) : List Char → List (List Char)
  | [] => [[]]
  | x :: rest =>
    match charSplit c rest with
    | [] => [[]]
    | g :: gs => if x = c then [] :: g :: gs else (x :: g) :: gs

/-- Python `str.split(sep)` for a one-character separator. -/
def pySplit (c : Char) (s : String) : List String :=
  (charSplit c s.data).map String.mk

/-- `ChapterGenerator._dedupe_keep_order`: trim every entry, drop empties and
later duplicates, keep first-seen order (chapter.py:1094-1106). -/
def dedupeKeepOrder (values : List String) : List String :=
  go values []
where
  go : List String → List String → List String
    | [], _ => []
    | v :: rest, seen =>
      let normalized := (pyStrip v)
      if normalized = "" ∨ normalized ∈ seen then go rest seen
      else normalized :: go rest (normalized :: seen)

/-- `ChapterGenerator._to_text_list`: trim entries, drop empties, stop once
`limit` entries are collected (`limit = 0` means unlimited)
(chapter.py:83-96). -/
def toTextList (values : List String) (limit : Nat) : List String :=
  go values 0
where
  go : List String → Nat → List String
    | [], _ => []
    | v :: rest, count =>
      let text := (pyStrip v)
      if text = "" then go rest count
      else if 0 < limit ∧ limit ≤ count + 1 then [text]
      else text :: go rest (count + 1)

/-! ### Level vocabulary (`chapter.py:1162-1208`) -/

/-- The blocked coarse-level vocabulary of `_is_granular_level`
(chapter.py:1171). -/
def blockedLevels : List String :=
  ["人类", "道士", "武夫", "将军", "修士", "鬼物", "未知", "凡人"]

/-- `ChapterGenerator._is_granular_level` (chapter.py:1162-1172). -/
def isGranularLevel (levelText : String) : Bool :=
  if levelText = "" then false
  else
    let normalized := (pyStrip levelText)
    if containsSub "·" normalized then true
    else if containsSub "境" normalized ∧ 4 ≤ normalized.length then true
    else ¬ normalized ∈ blockedLevels

/-- `ChapterGenerator._normalize_level_key` (chapter.py:1174-1188): strip a
parenthesised qualifier, keep at most the first three `·`-separated
segments. -/
def normalizeLevelKey (levelText : String) : String :=
  let normalized := (pyStrip levelText)
  if normalized = "" then ""
  else
    let normalized :=
      if containsSub "（" normalized then
        pyStrip ((pySplit '（' normalized).headD "")
      else normalized
    let normalized :=
      if containsSub "(" normalized then
        pyStrip ((pySplit '(' normalized).headD "")
      else normalized
    let parts := ((pySplit '·' normalized).map pyStrip).filter (· ≠ "")
    if 3 ≤ parts.length then String.intercalate "·" (parts.take 3)
    else if 2 ≤ parts.length then String.intercalate "·" (parts.take 2)
    else normalized

/-- The "done" status vocabulary of `_is_requirement_done`
(chapter.py:1190-1208). -/
def doneTokens : List String :=
  ["done", "completed", "acquired", "fulfilled", "已完成", "完成", "达成",
   "已获取", "获取", "获得", "acquire"]

/-- `ChapterGenerator._is_requirement_done` (chapter.py:1190-1208). -/
def isRequirementDone (statusValue : String) : Bool :=
  let normalized := pyLower ((pyStrip statusValue))
  if normalized = "" then false else normalized ∈ doneTokens

/-! ### Progression data model (`spec.md` §3, produced by the pipeline and
consumed by `chapter.py:1210-1442`) -/

/-- A gated requirement (resource or condition) of a `Transition`. -/
structure Requirement where
  name : String
  status : String
  keywords : List String
  deriving Repr, DecidableEq

/-- One step of the protagonist's fixed advancement plan. -/
structure Transition where
  from_level : String
  to_level : String
  required_resources : List Requirement
  required_conditions : List Requirement
  completed : Bool
  deriving Repr, DecidableEq

instance : Inhabited Transition :=
  ⟨⟨"", "", [], [], false⟩⟩

/-- The `protagonist_progression` sub-document of the world state. -/
structure Progression where
  name : String
  current_level : String
  next_level : String
  transitions : List Transition
  active_transition_index : Option Nat
  resource_inventory : List String
  history : List String
  deriving Repr, DecidableEq

/-- Python `l[-n:]` for `n > 0`: the last `n` elements. -/
def takeLast (n : Nat) (l : List α) : List α :=
  l.drop (l.length - n)

/-- Index of the first incomplete transition at or after `start`. -/
def findIncompleteFrom (ts : List Transition) (start : Nat) : Option Nat :=
  match ts with
  | [] => none
  | t :: rest =>
    match start with
    | 0 => if ¬ t.completed then some 0 else
        (findIncompleteFrom rest 0).map (· + 1)
    | start + 1 => (findIncompleteFrom rest start).map (· + 1)

/-- `ChapterGenerator._get_active_transition` (chapter.py:1217-1242): prefer a
valid stored `active_transition_index`; otherwise point the index at the
first incomplete transition (mutating the progression document).  Returns
`none` when no transition is eligible (the Python code returns `{}`). -/
def getActiveTransition (p : Progression) : Option (Nat × Progression) :=
  if p.transitions.isEmpty then none
  else
    match p.active_transition_index with
    | some i =>
      if i < p.transitions.length then some (i, p)
      else getActiveTransitionScan p
    | none => getActiveTransitionScan p
where
  /-- the fallback loop of chapter.py:1236-1242 -/
  getActiveTransitionScan (p : Progression) : Option (Nat × Progression) :=
    match findIncompleteFrom p.transitions 0 with
    | some j => some (j, { p with active_transition_index := some j })
    | none => none

/-- Python `set.add` modelled as append-if-absent (insertion order). -/
def addToSet (s : List String) (v : String) : List String :=
  if v ∈ s then s else s ++ [v]

/-- Per-character update payload produced by the state-analysis model and
consumed by `WorldStateUpdateService.update` (chapter_workflow.py:326-488).
Scalar keys that Python reads with truthiness tests are modelled as strings
where `""` stands for an absent/falsy value; `resources_acquired` and
`conditions_completed` are the two lists of `breakthrough_progress`. -/
structure RawActionEntry where
  action : String
  summary : String
  reason : String
  outcome : String
  impact : String
  location : String
  target : String
  tags : List String
  deriving Repr, DecidableEq

/-- A `relationship_updates` element; `type` is the legacy alias key for
`relation_type` (chapter.py:1455). -/
structure RelationshipUpdate where
  target : String
  relation_type : String
  type : String
  description : String
  deriving Repr, DecidableEq

/-- The `breakthrough_progress` sub-document of a character update
(chapter_workflow.py:261-264).  A `none` value at the `CharUpdate` level
stands for an absent or falsy (empty-dict) key. -/
structure BreakthroughProgress where
  resources_acquired : List String
  conditions_completed : List String
  deriving Repr, DecidableEq

structure CharUpdate where
  name : String
  status_change : String
  status_entries : List String
  status_tags : Option (List String)
  physical_state : String
  mental_state : String
  current_goal : String
  level_update : String
  breakthrough_progress : Option BreakthroughProgress
  action_history_entries : List RawActionEntry
  short_term : List String
  long_term : List String
  beliefs : List String
  new_abilities : List String
  new_items : List String
  relationship_updates : List RelationshipUpdate
  relationship_changes : Option (List String)
  deriving Repr, DecidableEq

/-- The explicit resource evidence of `_mark_transition_progress`
(chapter.py:1256-1271): `breakthrough_progress.resources_acquired` plus
`new_items`, trimmed, deduplicated in insertion order. -/
def explicitResources (u : CharUpdate) : List String :=
  let step := fun (acc : List String) (item : String) =>
    let token := (pyStrip item)
    if token ≠ "" then addToSet acc token else acc
  (((u.breakthrough_progress.map BreakthroughProgress.resources_acquired).getD [])
    ++ u.new_items).foldl step []

/-- The status texts of the update (chapter.py:1273-1277 and
chapter_workflow.py:332-338): `status_change` (when truthy) followed by the
non-empty trimmed `status_entries`. -/
def statusEntriesOf (u : CharUpdate) : List String :=
  (if u.status_change ≠ "" then [(pyStrip u.status_change)] else []) ++
    (u.status_entries.map pyStrip).filter (· ≠ "")

/-- The explicit condition evidence of `_mark_transition_progress`
(chapter.py:1262-1279): `breakthrough_progress.conditions_completed` plus
the status texts, deduplicated in insertion order. -/
def explicitConditions (u : CharUpdate) : List String :=
  let step := fun (acc : List String) (item : String) =>
    let token := (pyStrip item)
    if token ≠ "" then addToSet acc token else acc
  let base :=
    (((u.breakthrough_progress.map BreakthroughProgress.conditions_completed).getD [])).foldl
      step []
  (statusEntriesOf u).foldl addToSet base

/-- The fuzzy-evidence text of `_mark_transition_progress`
(chapter.py:1281-1285): explicit evidence, mental and physical state, and
the first 1500 characters of the chapter. -/
def combinedText (u : CharUpdate) (newContent : String) : String :=
  String.intercalate " "
    (explicitResources u ++ explicitConditions u ++
      [(pyStrip u.mental_state), (pyStrip u.physical_state), pySlice 1500 newContent])

/-- Whether one unsatisfied requirement is hit by the update's evidence
(chapter.py:1296-1326): explicit mention, substring of the combined text,
or a non-empty keyword occurring in the combined text. -/
def requirementHit (explicit : List String) (combined : String)
    (req : Requirement) : Bool :=
  let name := (pyStrip req.name)
  name ∈ explicit ∨ containsSub name combined ∨
    req.keywords.any (fun k => (pyStrip k) ≠ "" ∧ containsSub (pyStrip k) combined)

/-- Mark the requirements of one list: unsatisfied hits flip to `newStatus`
and emit one log line each (chapter.py:1296-1326). -/
def markRequirementList (explicit : List String) (combined : String)
    (newStatus logLabel : String) (reqs : List Requirement) :
    List Requirement × List String :=
  match reqs with
  | [] => ([], [])
  | req :: rest =>
    let (rest', logs) := markRequirementList explicit combined newStatus logLabel rest
    let name := (pyStrip req.name)
    if name = "" ∨ isRequirementDone req.status then (req :: rest', logs)
    else if requirementHit explicit combined req then
      ({ req with status := newStatus } :: rest', (logLabel ++ name) :: logs)
    else (req :: rest', logs)

/-- `ChapterGenerator._mark_transition_progress` (chapter.py:1244-1328),
acting on the transition at index `idx` of the progression's plan.  Returns
the updated progression (inventory and requirement statuses) and the
progress log lines. -/
def markTransitionProgress (p : Progression) (idx : Nat) (u : CharUpdate)
    (newContent : String) : Progression × List String :=
  let t := p.transitions.getD idx default
  let er := explicitResources u
  let ec := explicitConditions u
  let combined := combinedText u newContent
  let invStep := fun (acc : List String × List String) (r : String) =>
    if r ∈ acc.1 then acc
    else (acc.1 ++ [r], acc.2 ++ ["主角资源入库: " ++ r])
  let (inventory, invLogs) := er.foldl invStep (p.resource_inventory, [])
  let (resources, resLogs) :=
    markRequirementList er combined ("acquired") ("主角突破资源达成: ") t.required_resources
  let (conditions, condLogs) :=
    markRequirementList ec combined ("done") ("主角突破条件达成: ") t.required_conditions
  let t' := { t with required_resources := resources, required_conditions := conditions }
  ({ p with resource_inventory := inventory, transitions := p.transitions.set idx t' },
    invLogs ++ resLogs ++ condLogs)

/-- The active transition after progress marking (the two
`markRequirementList` passes of chapter.py:1296-1326). -/
def markedTransition (t : Transition) (u : CharUpdate) (content : String) :
    Transition :=
  { t with
    required_resources :=
      (markRequirementList (explicitResources u) (combinedText u content)
        ("acquired") ("主角突破资源达成: ") t.required_resources).1,
    required_conditions :=
      (markRequirementList (explicitConditions u) (combinedText u content)
        ("done") ("主角突破条件达成: ") t.required_conditions).1 }

/-- `ChapterGenerator._collect_missing_requirements` (chapter.py:1330-1349). -/
def collectMissingRequirements (t : Transition) : List String :=
  ((t.required_resources.filter
      (fun r => (pyStrip r.name) ≠ "" ∧ ¬ isRequirementDone r.status)).map
    (fun r => "资源:" ++ (pyStrip r.name))) ++
  ((t.required_conditions.filter
      (fun c => (pyStrip c.name) ≠ "" ∧ ¬ isRequirementDone c.status)).map
    (fun c => "条件:" ++ (pyStrip c.name)))

/-- `ChapterGenerator._find_transition_index` (chapter.py:1351-1363): the
identity check fires only at the active transition itself, which also
matches by fields, so the result is the first index whose `from_level` and
`to_level` agree with the given transition. -/
def findTransitionIndex (ts : List Transition) (t : Transition) : Option Nat :=
  match ts with
  | [] => none
  | x :: rest =>
    if x.from_level = t.from_level ∧ x.to_level = t.to_level then some 0
    else (findTransitionIndex rest t).map (· + 1)

/-- The pointer-advance step at the end of `_complete_transition`
(chapter.py:1375-1396): find the completed transition's index and point at
the next incomplete transition after it (or clear the pointer). -/
def advanceAfter (base : Progression) (transitions : List Transition)
    (t : Transition) : Progression :=
  match findTransitionIndex transitions t with
  | none => { base with next_level := "", active_transition_index := none }
  | some i =>
    match findIncompleteFrom transitions (i + 1) with
    | some j =>
      { base with active_transition_index := some j,
                  next_level := (transitions.getD j default).to_level }
    | none => { base with next_level := "", active_transition_index := none }

/-- `ChapterGenerator._complete_transition` (chapter.py:1365-1396): mark the
transition at `activeIdx` completed, record the level, log to the capped
history, and advance the pointer to the next incomplete transition. -/
def completeTransition (p : Progression) (activeIdx : Nat)
    (level_update : String) : Progression :=
  let t := p.transitions.getD activeIdx default
  let transitions := p.transitions.set activeIdx { t with completed := true }
  let line := "突破成功: " ++ t.from_level ++ " -> " ++ t.to_level
  let history := takeLast 20 (p.history ++ [line])
  let base := { p with transitions := transitions,
                       current_level := level_update, history := history }
  advanceAfter base transitions t

/-- Result of the progression gate: the decision, the rejection reason, the
progress log lines, and the updated progression document. -/
structure GateResult where
  allowed : Bool
  reason : String
  logs : List String
  progression : Option Progression
  deriving Repr, DecidableEq

/-- `ChapterGenerator._handle_protagonist_level_update`
(chapter.py:1398-1442): the progression gate.  `charName`/`charLevel` are
the character's `name` and `level` fields; `level_update` is the trimmed
requested level. -/
def handleProtagonistLevelUpdate (prog? : Option Progression)
    (charName charLevel : String) (u : CharUpdate)
    (newContent level_update : String) : GateResult :=
  match prog? with
  | none => ⟨true, "", [], none⟩
  | some p =>
    let protagonistName := (pyStrip p.name)
    if protagonistName ≠ "" ∧ charName ≠ protagonistName then
      ⟨true, "", [], some p⟩
    else
      match getActiveTransition p with
      | none =>
        ⟨true, "", ["主角境界同步: " ++ level_update],
          some { p with current_level := level_update }⟩
      | some (idx, p1) =>
        let (p2, logs) := markTransitionProgress p1 idx u newContent
        let t := p2.transitions.getD idx default
        let expected := normalizeLevelKey (pyStrip t.to_level)
        let requested := normalizeLevelKey level_update
        let current := normalizeLevelKey
          (pyStrip (if p2.current_level = "" then charLevel else p2.current_level))
        if requested = current then ⟨true, "", logs, some p2⟩
        else if expected ≠ "" ∧ requested ≠ expected then
          ⟨false, "主角升级路径固定，下一境应为 " ++ t.to_level, logs, some p2⟩
        else
          let missing := collectMissingRequirements t
          if missing ≠ [] then
            ⟨false, "主角突破条件未满足：" ++
              String.intercalate "；" (missing.take 4), logs, some p2⟩
          else
            let p3 := completeTransition p2 idx level_update
            ⟨true, "",
              logs ++ ["主角突破成功: " ++ t.from_level ++ " -> " ++ t.to_level],
              some p3⟩

/-! ### Character state and merge (`chapter_workflow.py:326-488`,
`chapter.py:1108-1160`, `chapter.py:1444-1474`) -/

/-- A stored relationship entry (chapter.py:1462-1469). -/
structure Relationship where
  target : String
  relation_type : String
  description : String
  deriving Repr, DecidableEq

/-- A stored action-history entry.  `chapter` is kept as text because stored
entries stamp an integer while legacy text entries leave it absent (`""`).
Plain-string history entries are out of scope of this typed embedding. -/
structure ActionEntry where
  chapter : String
  action : String
  reason : String
  outcome : String
  impact : String
  location : String
  target : String
  tags : List String
  deriving Repr, DecidableEq

/-- The per-entry normalization of `_dedupe_action_history`
(chapter.py:1113-1146): trim every field, cap tags at 4, drop entries with
an empty action. -/
def normalizeActionEntry (e : ActionEntry) : Option ActionEntry :=
  let action := (pyStrip e.action)
  if action = "" then none
  else some
    { chapter := e.chapter, action := action, reason := (pyStrip e.reason),
      outcome := (pyStrip e.outcome), impact := (pyStrip e.impact),
      location := (pyStrip e.location), target := (pyStrip e.target),
      tags := (((e.tags.map pyStrip).filter (· ≠ "")).take 4) }

/-- The dedup key of `_dedupe_action_history` (chapter.py:1129): the
normalized entry with a trimmed chapter stamp. -/
def actionEntryKey (e : ActionEntry) : ActionEntry :=
  { e with chapter := (pyStrip e.chapter) }

/-- `ChapterGenerator._dedupe_action_history` (chapter.py:1108-1160):
normalize, drop duplicates by full-field key keeping the first occurrence,
and keep the last `limit` entries when `limit > 0`. -/
def dedupeActionHistory (entries : List ActionEntry) (limit : Nat) :
    List ActionEntry :=
  let normalized := go entries []
  if 0 < limit then takeLast limit normalized else normalized
where
  go : List ActionEntry → List ActionEntry → List ActionEntry
    | [], _ => []
    | e :: rest, seen =>
      match normalizeActionEntry e with
      | none => go rest seen
      | some n =>
        let k := actionEntryKey n
        if k ∈ seen then go rest seen else n :: go rest (k :: seen)

/-- `ChapterGenerator._format_action_history_entry` (chapter.py:98-132) for
structured entries (stored entries carry no `summary` key). -/
def formatActionHistoryEntry (e : ActionEntry) : String :=
  let chapter := (pyStrip e.chapter)
  let action := (pyStrip e.action)
  let reason := (pyStrip e.reason)
  let outcome := (pyStrip e.outcome)
  let impact := (pyStrip e.impact)
  if action = "" ∧ reason = "" ∧ outcome = "" ∧ impact = "" then ""
  else
    let parts :=
      (if action ≠ "" then [action] else []) ++
      (if reason ≠ "" then ["动机:" ++ reason] else []) ++
      (if outcome ≠ "" then ["结果:" ++ outcome] else []) ++
      (if impact ≠ "" then ["影响:" ++ impact] else [])
    let body := pyStrip (String.intercalate "；" parts)
    if body = "" then ""
    else if chapter ≠ "" then "第" ++ chapter ++ "章:" ++ body
    else body

/-- Update the first relationship entry whose stored target equals `target`
(chapter.py:1458-1474, the `next(...)` lookup returns the first match and
only that entry is mutated). -/
def updateFirstRelationship (rels : List Relationship)
    (target relationType description : String) : List Relationship :=
  match rels with
  | [] => []
  | r :: rest =>
    if r.target = target then
      { r with
        relation_type := if relationType ≠ "" then relationType else r.relation_type,
        description := if description ≠ "" then description else r.description } :: rest
    else r :: updateFirstRelationship rest target relationType description

/-- `ChapterGenerator._apply_relationship_updates` (chapter.py:1444-1474):
upsert-by-target, first match wins, `relation_type` falls back to the
legacy `type` key and defaults to `"未知"` on insert. -/
def applyRelationshipUpdates (rels : List Relationship)
    (updates : List RelationshipUpdate) : List Relationship :=
  updates.foldl step rels
where
  step (rels : List Relationship) (u : RelationshipUpdate) : List Relationship :=
    let target := (pyStrip u.target)
    if target = "" then rels
    else
      let relationType := pyStrip (if u.relation_type ≠ "" then u.relation_type else u.type)
      let description := (pyStrip u.description)
      if rels.any (fun r => r.target = target) then
        updateFirstRelationship rels target relationType description
      else
        rels ++ [{ target := target,
                   relation_type := if relationType ≠ "" then relationType else "未知",
                   description := description }]

/-- A character document of the world state (`spec.md` §3). -/
structure CharState where
  name : String
  level : String
  physical_state : String
  mental_state : String
  current_goal : String
  current_status : List String
  status_tags : List String
  abilities : List String
  items : List String
  relationships : List Relationship
  relationship_history : List String
  action_history : List ActionEntry
  memory_short_term : List String
  memory_long_term : List String
  memory_beliefs : List String
  deriving Repr, DecidableEq

/-- The stamped action entries built from the update payload
(chapter_workflow.py:395-426): `action` falls back to `summary`, fields are
trimmed, tags capped at 3, and the latest chapter number is stamped. -/
def buildActionEntries (latestChapterNum : Nat)
    (raws : List RawActionEntry) : List ActionEntry :=
  match raws with
  | [] => []
  | raw :: rest =>
    let actionText :=
      if (pyStrip raw.action) ≠ "" then (pyStrip raw.action) else (pyStrip raw.summary)
    let rest' := buildActionEntries latestChapterNum rest
    if actionText = "" then rest'
    else
      { chapter := toString latestChapterNum, action := actionText,
        reason := (pyStrip raw.reason), outcome := (pyStrip raw.outcome),
        impact := (pyStrip raw.impact), location := (pyStrip raw.location),
        target := (pyStrip raw.target), tags := toTextList raw.tags 3 } :: rest'

/-- The derived short-memory line from the first action entry with a
non-empty rendering (chapter_workflow.py:435-439). -/
def firstActionLog (entries : List ActionEntry) : List String :=
  match entries with
  | [] => []
  | e :: rest =>
    let log := formatActionHistoryEntry e
    if log ≠ "" then [log] else firstActionLog rest

/-- Stage 1 of the merge loop (chapter_workflow.py:332-342): append status
texts to the capped `current_status` ring. -/
def mergeStatusEntries (c : CharState) (u : CharUpdate) : CharState :=
  let statusEntries := statusEntriesOf u
  if statusEntries ≠ [] then
    { c with current_status := takeLast 10 (c.current_status ++ statusEntries) }
  else c

/-- Stage 2 (chapter_workflow.py:344-357): last-write-wins scalars and the
deduplicated tag set. -/
def mergeScalars (c : CharState) (u : CharUpdate) : CharState :=
  let c := if u.physical_state ≠ "" then { c with physical_state := (pyStrip u.physical_state) } else c
  let c := if u.mental_state ≠ "" then { c with mental_state := (pyStrip u.mental_state) } else c
  let c := if u.current_goal ≠ "" then { c with current_goal := (pyStrip u.current_goal) } else c
  match u.status_tags with
  | none => c
  | some tags =>
    { c with status_tags :=
        dedupeKeepOrder (c.status_tags ++ (tags.map pyStrip).filter (· ≠ "")) }

/-- Stage 3 (chapter_workflow.py:359-372): progress marking without a level
request (`breakthrough_progress` present, no `level_update`). -/
def progressOnlyMark (prog? : Option Progression) (c : CharState)
    (u : CharUpdate) (newContent : String) : Option Progression :=
  if u.breakthrough_progress.isSome ∧ u.level_update = "" then
    match prog? with
    | none => prog?
    | some p =>
      if (pyStrip p.name) = "" ∨ (pyStrip p.name) = c.name then
        match getActiveTransition p with
        | some (idx, p1) => some (markTransitionProgress p1 idx u newContent).1
        | none => some p
      else some p
  else prog?

/-- Append one audit line to the capped `current_status` ring
(chapter_workflow.py:387-393). -/
def appendStatus (line : String) (c : CharState) : CharState :=
  { c with current_status := takeLast 10 (c.current_status ++ [line]) }

/-- Stage 4 (chapter_workflow.py:374-393): the gated level update, with the
blocked / too-coarse audit entries appended to `current_status`. -/
def levelStage (prog? : Option Progression) (c : CharState) (u : CharUpdate)
    (newContent : String) : CharState × Option Progression :=
  if u.level_update ≠ "" then
    let levelUpdate := (pyStrip u.level_update)
    if isGranularLevel levelUpdate then
      let gate := handleProtagonistLevelUpdate prog? c.name c.level u newContent levelUpdate
      if gate.allowed then ({ c with level := levelUpdate }, gate.progression)
      else if gate.reason ≠ "" then
        (appendStatus ("境界更新被拦截: " ++ gate.reason) c, gate.progression)
      else (c, gate.progression)
    else
      (appendStatus ("境界更新被忽略（过粗）: " ++ levelUpdate) c, prog?)
  else (c, prog?)

/-- The short-term memory additions (chapter_workflow.py:430-439): explicit
short-term entries, the last two status texts, and the first renderable
action entry. -/
def shortMemoriesOf (u : CharUpdate) (actionEntries : List ActionEntry) :
    List String :=
  toTextList u.short_term 6 ++
  (if statusEntriesOf u ≠ [] then takeLast 2 (statusEntriesOf u) else []) ++
  firstActionLog actionEntries

/-- Collection step (chapter_workflow.py:441-446): action history append,
dedup and cap. -/
def stepActionHistory (actionEntries : List ActionEntry) (c : CharState) :
    CharState :=
  if actionEntries ≠ [] then
    { c with action_history := dedupeActionHistory (c.action_history ++ actionEntries) 40 }
  else c

/-- Collection step (chapter_workflow.py:448-453): short-term memory append,
dedup and cap 30. -/
def stepShortMemory (shortMemories : List String) (c : CharState) : CharState :=
  if shortMemories ≠ [] then
    { c with memory_short_term :=
        takeLast 30 (dedupeKeepOrder (c.memory_short_term ++ shortMemories)) }
  else c

/-- Collection step (chapter_workflow.py:455-460): long-term memory, cap 40. -/
def stepLongMemory (longMemories : List String) (c : CharState) : CharState :=
  if longMemories ≠ [] then
    { c with memory_long_term :=
        takeLast 40 (dedupeKeepOrder (c.memory_long_term ++ longMemories)) }
  else c

/-- Collection step (chapter_workflow.py:462-467): belief memory, cap 20. -/
def stepBeliefMemory (beliefMemories : List String) (c : CharState) : CharState :=
  if beliefMemories ≠ [] then
    { c with memory_beliefs :=
        takeLast 20 (dedupeKeepOrder (c.memory_beliefs ++ beliefMemories)) }
  else c

/-- Collection step (chapter_workflow.py:469-474): ability merge-dedup. -/
def stepAbilities (newAbilities : List String) (c : CharState) : CharState :=
  if newAbilities ≠ [] then
    { c with abilities :=
        dedupeKeepOrder (c.abilities ++ (newAbilities.map pyStrip).filter (· ≠ "")) }
  else c

/-- Collection step (chapter_workflow.py:475-478): item merge-dedup. -/
def stepItems (newItems : List String) (c : CharState) : CharState :=
  if newItems ≠ [] then
    { c with items :=
        dedupeKeepOrder (c.items ++ (newItems.map pyStrip).filter (· ≠ "")) }
  else c

/-- Collection step (chapter_workflow.py:479-480): relationship upserts. -/
def stepRelationships (updates : List RelationshipUpdate) (c : CharState) :
    CharState :=
  { c with relationships := applyRelationshipUpdates c.relationships updates }

/-- Collection step (chapter_workflow.py:481-488): legacy relationship
change log, cap 20. -/
def stepRelChanges (changes? : Option (List String)) (c : CharState) :
    CharState :=
  match changes? with
  | none => c
  | some changes =>
    { c with relationship_history :=
        takeLast 20 (c.relationship_history ++ (changes.map pyStrip).filter (· ≠ "")) }

/-- Stage 5 (chapter_workflow.py:395-488): bounded de-duplicated collection
merges (action history, memories, abilities, items, relationships). -/
def mergeCollections (latestChapterNum : Nat) (c : CharState)
    (u : CharUpdate) : CharState :=
  let actionEntries := buildActionEntries latestChapterNum u.action_history_entries
  stepRelChanges u.relationship_changes
    (stepRelationships u.relationship_updates
      (stepItems u.new_items
        (stepAbilities u.new_abilities
          (stepBeliefMemory (toTextList u.beliefs 4)
            (stepLongMemory (toTextList u.long_term 6)
              (stepShortMemory (shortMemoriesOf u actionEntries)
                (stepActionHistory actionEntries c)))))))

/-- The body of the per-character merge loop of
`WorldStateUpdateService.update` (chapter_workflow.py:332-488), applied to
one character whose `name` matches the update, threading the progression
document that lives under `world.protagonist_progression`. -/
def applyUpdateToChar (prog? : Option Progression) (latestChapterNum : Nat)
    (newContent : String) (c : CharState) (u : CharUpdate) :
    CharState × Option Progression :=
  let c := mergeStatusEntries c u
  let c := mergeScalars c u
  let prog? := progressOnlyMark prog? c u newContent
  let (c, prog?) := levelStage prog? c u newContent
  (mergeCollections latestChapterNum c u, prog?)

/-- A location entry of the world state (chapter_workflow.py:500-519); a
plain-string payload is a `Location` with an empty description. -/
structure Location where
  name : String
  description : String
  deriving Repr, DecidableEq

/-- The `world_updates` section of the analysis document
(chapter_workflow.py:493-568).  `Option` fields stand for keys whose
absence the Python code can observe. -/
structure WorldUpdates where
  plot_progress : Option String
  new_locations : List Location
  new_methods : List String
  new_artifacts : List String
  new_factions : List String
  time_advance : String
  faction_changes : Option (List String)
  world_state_notes : Option (List String)
  deriving Repr, DecidableEq

/-- The whole structured update document recovered from the analysis
stream. -/
structure UpdateDoc where
  character_updates : List CharUpdate
  world_updates : Option WorldUpdates
  deriving Repr, DecidableEq

/-- The world-state root document (`spec.md` §3); `progression` is
`world.protagonist_progression`, `known_methods`/`known_artifacts`/
`factions` live under `world`. -/
structure WorldData where
  characters : List CharState
  progression : Option Progression
  known_methods : List String
  known_artifacts : List String
  factions : List String
  locations : List Location
  plot_history : List String
  timeline : List String
  faction_history : List String
  world_state_notes : List String
  deriving Repr, DecidableEq

/-- One character update applied across the character list
(chapter_workflow.py:329-331): every character whose `name` equals the
update's `name` is merged, threading the progression document. -/
def applyCharacterUpdate (w : WorldData) (latestChapterNum : Nat)
    (newContent : String) (u : CharUpdate) : WorldData :=
  let step := fun (acc : List CharState × Option Progression) (c : CharState) =>
    if c.name = u.name then
      let (c', p') := applyUpdateToChar acc.2 latestChapterNum newContent c u
      (acc.1 ++ [c'], p')
    else (acc.1 ++ [c], acc.2)
  let (chars, prog) := w.characters.foldl step ([], w.progression)
  { w with characters := chars, progression := prog }

/-- Upsert of one location (chapter_workflow.py:502-519): first match by
name wins, a non-empty description overwrites it, new names append. -/
def upsertLocation (locs : List Location) (l : Location) : List Location :=
  let name := (pyStrip l.name)
  let desc := (pyStrip l.description)
  if name = "" then locs
  else if locs.any (fun x => x.name = name) then
    go locs name desc
  else locs ++ [{ name := name, description := desc }]
where
  go : List Location → String → String → List Location
    | [], _, _ => []
    | x :: rest, name, desc =>
      if x.name = name then
        (if desc ≠ "" then { x with description := desc } else x) :: rest
      else x :: go rest name desc

/-- The `world_updates` merge of `WorldStateUpdateService.update`
(chapter_workflow.py:493-568). -/
def mergeWorldUpdates (w : WorldData) (wu : WorldUpdates) : WorldData :=
  let w :=
    match wu.plot_progress with
    | none => w
    | some progress => { w with plot_history := takeLast 10 (w.plot_history ++ [progress]) }
  let w :=
    if wu.new_locations ≠ [] then
      { w with locations := wu.new_locations.foldl upsertLocation w.locations }
    else w
  let w :=
    if wu.new_methods ≠ [] then
      { w with known_methods :=
          dedupeKeepOrder (w.known_methods ++ (wu.new_methods.map pyStrip).filter (· ≠ "")) }
    else w
  let w :=
    if wu.new_artifacts ≠ [] then
      { w with known_artifacts :=
          dedupeKeepOrder (w.known_artifacts ++ (wu.new_artifacts.map pyStrip).filter (· ≠ "")) }
    else w
  let w :=
    if wu.new_factions ≠ [] then
      { w with factions :=
          dedupeKeepOrder (w.factions ++ (wu.new_factions.map pyStrip).filter (· ≠ "")) }
    else w
  let w :=
    if wu.time_advance ≠ "" then
      { w with timeline := takeLast 20 (w.timeline ++ [(pyStrip wu.time_advance)]) }
    else w
  let w :=
    match wu.faction_changes with
    | none => w
    | some changes =>
      { w with faction_history :=
          takeLast 30 (w.faction_history ++ (changes.map pyStrip).filter (· ≠ "")) }
  match wu.world_state_notes with
  | none => w
  | some notes =>
    { w with world_state_notes :=
        takeLast 30 (w.world_state_notes ++ (notes.map pyStrip).filter (· ≠ "")) }

/-- The full in-memory merge of one recovered update document
(chapter_workflow.py:324-568). -/
def mergeUpdates (w : WorldData) (latestChapterNum : Nat)
    (newContent : String) (doc : UpdateDoc) : WorldData :=
  let w1 := doc.character_updates.foldl
    (fun acc u => applyCharacterUpdate acc latestChapterNum newContent u) w
  match doc.world_updates with
  | none => w1
  | some wu => mergeWorldUpdates w1 wu

/-- Outcome of one `WorldStateUpdateService.update` cycle: the in-memory
world document, the document passed to `save_world_state` (if any), and
the reported `updated` flag. -/
structure UpdateOutcome where
  world : Option WorldData
  saved : Option WorldData
  updated : Bool
  deriving Repr, DecidableEq

/-- `WorldStateUpdateService.update` (chapter_workflow.py:204-579) at the
level of its state effects: an empty world document or a failed JSON
recovery reports `updated = false` and saves nothing; a recovered document
is merged in memory (the dicts are mutated in place inside the `try`), but
the save step `gen.edit_tools.save_world_state` (chapter_workflow.py:570)
dereferences an attribute the delegating `ChapterGenerator` never defines
(`gen` is the generator itself, chapter.py:1056; its `__init__`,
chapter.py:36-59, sets `storage` but no `edit_tools` — only
`OutlineGenerator` has one, outline.py:36), so the call raises
`AttributeError`, the `except` at chapter_workflow.py:577-579 catches it,
nothing is saved, and the cycle returns `updated = false`. -/
def worldStateUpdate (world? : Option WorldData) (latestChapterNum : Nat)
    (newContent : String) (recovered : Option UpdateDoc) : UpdateOutcome :=
  match world? with
  | none => ⟨none, none, false⟩
  | some w =>
    match recovered with
    | none => ⟨some w, none, false⟩
    | some doc =>
      let w' := mergeUpdates w latestChapterNum newContent doc
      ⟨some w', none, false⟩

/-! ### Generation target (`chapter.py:391-411`) -/

/-- `ChapterGenerator.MIN_CHAPTER_LENGTH` (chapter.py:28). -/
def MIN_CHAPTER_LENGTH : Nat := 3000

/-- The resolved generation target: mode, target chapter number and target
word count (the context fields of the Python dict are passed through
unchanged and omitted here). -/
structure GenerationTarget where
  mode : String
  chapterNum : Nat
  targetWords : Nat
  deriving Repr, DecidableEq

/-- `ChapterGenerator._resolve_generation_target` (chapter.py:391-411):
append to a short latest chapter, otherwise start a new one.
`defaultChapterWords` is `config.default_chapter_words` (config.py:65,
default 3000). -/
def resolveGenerationTarget (chNum chLen defaultChapterWords : Nat) :
    GenerationTarget :=
  if chLen < MIN_CHAPTER_LENGTH ∧ 0 < chNum then
    { mode := "append", chapterNum := chNum,
      targetWords := MIN_CHAPTER_LENGTH - chLen + 500 }
  else
    { mode := "new", chapterNum := chNum + 1,
      targetWords := defaultChapterWords + 500 }

/-! ### Outline-to-chapter resolver (`chapter.py:970-1040`) -/

/-- Split a character list at the last occurrence of `c`; the suffix starts
with `c`. -/
def splitAtLastChar (c : Char) : List Char → Option (List Char × List Char)
  | [] => none
  | x :: rest =>
    match splitAtLastChar c rest with
    | some (pre, suf) => some (x :: pre, suf)
    | none => if x = c then some ([], x :: rest) else none

/-- Decimal value of an ASCII digit run (the outline regexes use `\d`;
outlines write ASCII digits). -/
def digitsToNat (ds : List Char) : Nat :=
  ds.foldl (fun n c => n * 10 + (c.toNat - 48)) 0

/-- Match the chapter-range chunk `（第<digits>-<digits>章）` running exactly
to the end of the string (the optional suffix groups of `vol_pattern` and
`phase_pattern`, chapter.py:979-980). -/
def matchRangeChunk (suf : List Char) : Option (Nat × Nat) :=
  match suf with
  | '（' :: '第' :: rest =>
    let (ds1, rest1) := rest.span Char.isDigit
    if ds1 = [] then none
    else
      match rest1 with
      | '-' :: rest2 =>
        let (ds2, rest3) := rest2.span Char.isDigit
        if ds2 = [] then none
        else
          match rest3 with
          | ['章', '）'] => some (digitsToNat ds1, digitsToNat ds2)
          | _ => none
      | _ => none
  | _ => none

/-- Match a heading line against `^<marker>\s+(.+?)(?:（第(\d+)-(\d+)章）)?$`
(chapter.py:979-980) on an already-stripped line.  A heading without a
trailing range chunk gets the open default range `(0, 9999)`
(chapter.py:991-992, 1001-1002). -/
def parseHeadingLine (marker l : String) : Option (String × Nat × Nat) :=
  match stripLead marker.data l.data with
  | none => none
  | some cs =>
    let (ws, content) := cs.span Char.isWhitespace
    if ws = [] ∨ content = [] then none
    else
      match splitAtLastChar '（' content with
      | some (pre, suf) =>
        match matchRangeChunk suf with
        | some (a, b) =>
          if pre ≠ [] then some (String.mk pre, a, b)
          else some (String.mk content, 0, 9999)
        | none => some (String.mk content, 0, 9999)
      | none => some (String.mk content, 0, 9999)

/-- Match a per-chapter bullet against
`^\s*-\s*\*\*(?:第)?(\d+)(?:-(\d+))?章\*\*[:：](.+)$` (chapter.py:981) on an
already-stripped line; a missing end-of-range defaults to the start
(chapter.py:1012). -/
def parseItemLine (l : String) : Option (Nat × Nat × String) :=
  match (l.data.dropWhile Char.isWhitespace) with
  | '-' :: cs1 =>
    match cs1.dropWhile Char.isWhitespace with
    | '*' :: '*' :: cs3 =>
      let cs4 := match cs3 with
        | '第' :: rest => rest
        | _ => cs3
      let (ds1, cs5) := cs4.span Char.isDigit
      if ds1 = [] then none
      else
        let startCh := digitsToNat ds1
        let parsedEnd : Option (Nat × List Char) :=
          match cs5 with
          | '-' :: cs6 =>
            let (ds2, cs7) := cs6.span Char.isDigit
            if ds2 = [] then none else some (digitsToNat ds2, cs7)
          | _ => some (startCh, cs5)
        match parsedEnd with
        | none => none
        | some (endCh, cs7) =>
          match cs7 with
          | '章' :: '*' :: '*' :: sep :: rest =>
            if (sep = ':' ∨ sep = '：') ∧ rest ≠ [] then
              some (startCh, endCh, String.mk rest)
            else none
          | _ => none
    | _ => none
  | _ => none

/-- The detail-collection loop after a matched bullet
(chapter.py:1017-1030): gather following lines until a heading or the next
bold bullet, stripping list markers. -/
def collectDetails : List String → List String
  | [] => []
  | raw :: rest =>
    let next := (pyStrip raw)
    if next = "" then collectDetails rest
    else if strStarts "#" next ∨ strStarts "- **" next then []
    else if strStarts "-" next ∨ strStarts "*" next then
      (String.mk (next.data.dropWhile (fun ch => ch = '-' ∨ ch = '*' ∨ ch = ' ')))
        :: collectDetails rest
    else next :: collectDetails rest

/-- Result of the resolver: `{volume, phase, specific_goal}`. -/
structure OutlineInfo where
  volume : String
  phase : String
  specific_goal : String
  deriving Repr, DecidableEq

/-- The goal text captured from a matched bullet: its trimmed summary plus
any detail lines (chapter.py:1016-1033). -/
def itemGoal (summary : String) (rest : List String) : String :=
  let details := collectDetails rest
  if details ≠ [] then
    (pyStrip summary) ++ "\n详情：" ++ String.intercalate "\n" details
  else (pyStrip summary)

/-- The line scan of `_parse_outline_for_chapter` (chapter.py:983-1040). -/
def scanOutline (n : Nat) (vol phase : String) : List String → OutlineInfo
  | [] => ⟨vol, phase, ""⟩
  | raw :: rest =>
    let line := (pyStrip raw)
    if line = "" then scanOutline n vol phase rest
    else
      match parseHeadingLine "##" line with
      | some (t, a, b) =>
        if a ≤ n ∧ n ≤ b then scanOutline n t "" rest
        else scanOutline n vol phase rest
      | none =>
        match parseHeadingLine "###" line with
        | some (t, a, b) =>
          if a ≤ n ∧ n ≤ b then scanOutline n vol t rest
          else scanOutline n vol phase rest
        | none =>
          match parseItemLine line with
          | none => scanOutline n vol phase rest
          | some (a, b, summary) =>
            if a ≤ n ∧ n ≤ b then ⟨vol, phase, itemGoal summary rest⟩
            else scanOutline n vol phase rest

/-- `ChapterGenerator._parse_outline_for_chapter` (chapter.py:970-1040). -/
def parseOutlineForChapter (outlineText : String) (chapterNum : Nat) :
    OutlineInfo :=
  scanOutline chapterNum "" "" (pySplit (Char.ofNat 10) outlineText)

/-! ### Interactive approval workflow (`interactive/workflow.py`) -/

/-- A preparation bundle as the workflow observes it: the (possibly null)
thinking plan and the opaque remainder of the dict. -/
structure Preparation where
  thinking_plan : Option String
  bundle : String
  deriving Repr, DecidableEq

/-- The structured generation result consumed by the persist node. -/
structure GenResult where
  chapter : Nat
  title : String
  full_text : String
  new_content : String
  deriving Repr, DecidableEq

/-- The external collaborators of `StoryWriteWorkflow`: the chapter
generator's streamed entry points and the storage backend, modelled as
opaque result functions (the claims quantify over their behaviour). -/
structure WorkflowEnv where
  thinking_engine : Bool
  prepare_result : Option Preparation
  prepare_logs : List String
  format_full_plan : String → String
  generate_chunks : Preparation → List String
  generate_result : Preparation → Option GenResult
  save_chapter : Nat → String → String → String
  world_stream_logs : String → List String
  world_stream_result : String → Option String

/-- `WriteWorkflowState` (workflow.py:21-35): a partial dict; `none` fields
are absent keys. -/
structure WState where
  approved : Bool
  logs : Option (List String)
  preparation : Option Preparation
  plan_text : Option String
  requires_approval : Option Bool
  awaiting_approval : Option Bool
  generated_text : Option String
  result : Option GenResult
  saved_path : Option String
  world_update_logs : Option (List String)
  world_update : Option (Option String)
  error : Option String

/-- `StoryWriteWorkflow._format_plan_text` (workflow.py:211-218). -/
def formatPlanText (env : WorkflowEnv) (p : Preparation) : String :=
  match p.thinking_plan with
  | some plan => if env.thinking_engine then env.format_full_plan plan
      else "未启用剧情思考规划，将直接生成章节。"
  | none => "未启用剧情思考规划，将直接生成章节。"

/-- `StoryWriteWorkflow._node_prepare` (workflow.py:116-150).  The returned
partial dict is merged into the state (`dict.update`). -/
def nodePrepare (env : WorkflowEnv) (s : WState) : WState :=
  match s.preparation with
  | some p =>
    { s with preparation := some p,
             requires_approval := some (p.thinking_plan.isSome && env.thinking_engine),
             plan_text := some (formatPlanText env p) }
  | none =>
    match env.prepare_result with
    | none =>
      { s with logs := some env.prepare_logs, error := some "准备阶段未返回有效结果" }
    | some p =>
      { s with logs := some env.prepare_logs, preparation := some p,
               plan_text := some (formatPlanText env p),
               requires_approval := some (p.thinking_plan.isSome && env.thinking_engine) }

/-- `StoryWriteWorkflow._node_review` (workflow.py:152-157). -/
def nodeReview (s : WState) : WState :=
  { s with awaiting_approval := some (s.requires_approval.getD false && ! s.approved) }

/-- `StoryWriteWorkflow._node_generate` (workflow.py:159-178). -/
def nodeGenerate (env : WorkflowEnv) (s : WState) : WState :=
  match s.preparation with
  | none => { s with error := some "缺少 preparation，无法生成章节" }
  | some p =>
    let text := String.join (env.generate_chunks p)
    match env.generate_result p with
    | none => { s with generated_text := some text, error := some "生成阶段未返回结果" }
    | some r => { s with generated_text := some text, result := some r }

/-- `StoryWriteWorkflow._node_persist` (workflow.py:180-209). -/
def nodePersist (env : WorkflowEnv) (s : WState) : WState :=
  match s.result with
  | none => { s with error := some "缺少生成结果，无法保存" }
  | some r =>
    let path := env.save_chapter r.chapter r.title r.full_text
    if r.new_content ≠ "" then
      { s with saved_path := some path,
               world_update_logs := some (env.world_stream_logs r.new_content),
               world_update := some (env.world_stream_result r.new_content) }
    else
      { s with saved_path := some path,
               world_update_logs := some [], world_update := some none }

/-- The initial state built by `invoke` (workflow.py:65-77). -/
def initialWState (approved : Bool) (preparation : Option Preparation) : WState :=
  { approved := approved, logs := none, preparation := preparation,
    plan_text := none, requires_approval := none, awaiting_approval := none,
    generated_text := none, result := none, saved_path := none,
    world_update_logs := none, world_update := none, error := none }

/-- `StoryWriteWorkflow._invoke_fallback` (workflow.py:104-114): the
sequential `prepare → review → (await | generate → persist)` pipeline. -/
def invokeFallback (env : WorkflowEnv) (approved : Bool)
    (preparation : Option Preparation) : WState :=
  let s := nodePrepare env (initialWState approved preparation)
  let s := nodeReview s
  if s.awaiting_approval.getD false then s
  else
    let s := nodeGenerate env s
    if s.error.getD "" ≠ "" then s
    else nodePersist env s

/-! ### Concrete fixtures used by witnesses and counterexamples -/

/-- A pending requirement with the given name. -/
def pendingReq (n : String) : Requirement := ⟨n, "pending", []⟩

/-- Scenario transition: GhostPath-style breakthrough with two required
resources and one required condition. -/
def fixTrans1 : Transition :=
  ⟨"鬼道·阴身境·后期", "鬼道·阴身境·圆满",
   [pendingReq "鬼晶", pendingReq "阴木"], [pendingReq "斩杀心魔"], false⟩

/-- The following planned transition. -/
def fixTrans2 : Transition :=
  ⟨"鬼道·阴身境·圆满", "鬼道·鬼将境·初期", [pendingReq "鬼将令"], [], false⟩

/-- Scenario progression: protagonist 林霄 with an active first transition. -/
def fixProg : Progression :=
  ⟨"林霄", "鬼道·阴身境·后期", "鬼道·阴身境·圆满", [fixTrans1, fixTrans2],
   some 0, [], []⟩

/-- A character update with every field empty. -/
def emptyCharUpdate : CharUpdate :=
  ⟨"", "", [], none, "", "", "", "", none, [], [], [], [], [], [], [], none⟩

/-- A blank character document. -/
def blankChar (name level : String) : CharState :=
  ⟨name, level, "", "", "", [], [], [], [], [], [], [], [], [], []⟩

/-- C1 fixtures: the protagonist character and the satisfied-evidence
update requesting the next level. -/
def c1Char : CharState := blankChar "林霄" "鬼道·阴身境·后期"

def c1Update : CharUpdate :=
  { emptyCharUpdate with
    name := "林霄",
    level_update := "鬼道·阴身境·圆满",
    breakthrough_progress := some ⟨["鬼晶", "阴木"], ["斩杀心魔"]⟩ }

/-- C2 fixtures: an update whose requested level normalizes (but is not
verbatim) equal to the transition's `to_level`. -/
def c2Update : CharUpdate :=
  { emptyCharUpdate with
    name := "林霄",
    level_update := "鬼道·阴身境·圆满（巅峰）",
    breakthrough_progress := some ⟨["鬼晶", "阴木"], ["斩杀心魔"]⟩ }

/-- C3 fixtures: an update proposing the next level with no progress
signals. -/
def c3Update : CharUpdate :=
  { emptyCharUpdate with name := "林霄", level_update := "鬼道·阴身境·圆满" }

/-- C4 fixtures: a non-gated character and a proposed level that lacks the
`system·rank·subrank` structure yet is outside the blocked vocabulary. -/
def c4Char : CharState := blankChar "王五" "凡人"

def c4Update : CharUpdate :=
  { emptyCharUpdate with name := "王五", level_update := "大帝" }

/-- C5 fixtures: a preparation bundle with a plan and an environment whose
generation succeeds. -/
def c5Prep : Preparation := ⟨some "plan", "bundle"⟩

def c5Result : GenResult := ⟨7, "决战", "全文", "新增"⟩

def c5Env : WorkflowEnv :=
  ⟨true, some c5Prep, [], fun s => s, fun _ => ["片段"],
   fun _ => some c5Result, fun n t _ => toString n ++ "_" ++ t,
   fun _ => ["日志"], fun _ => some "更新"⟩

/-- C7 fixtures: a character already at the status cap, and an update
adding status, action and memory entries. -/
def c7Char : CharState :=
  { blankChar "齐天" "斗者" with
    current_status := ["s1", "s2", "s3", "s4", "s5", "s6", "s7", "s8", "s9", "s10"],
    action_history := [⟨"1", "行动一", "", "", "", "", "", []⟩],
    memory_short_term := ["m1", "m2"] }

def c7Update : CharUpdate :=
  { emptyCharUpdate with
    name := "齐天",
    status_change := "受了重伤",
    action_history_entries := [⟨"击败对手", "", "为了突破", "成功", "士气大增", "", "", []⟩],
    short_term := ["遇到神秘老者"] }

/-- Fields untouched by any collection step. -/
def collectionsFrame (a c : CharState) : Prop :=
  a.current_status = c.current_status ∧ a.level = c.level ∧ a.name = c.name

/-- Does a raw outline line parse as a per-chapter bullet whose range
contains chapter `n`?  The scan of `_parse_outline_for_chapter` stops at
the first line for which this holds. -/
def itemMatchesFor (n : Nat) (raw : String) : Bool :=
  match parseItemLine (pyStrip raw) with
  | some (a, b, _) => decide (a ≤ n ∧ n ≤ b)
  | none => false

/-- The volume/phase pair after the scan has processed one line that is not
a matching bullet (only the two heading branches can change them). -/
def scanHeads (n : Nat) (vol phase raw : String) : String × String :=
  let line := pyStrip raw
  match parseHeadingLine "##" line with
  | some (t, a, b) => if a ≤ n ∧ n ≤ b then (t, "") else (vol, phase)
  | none =>
    match parseHeadingLine "###" line with
    | some (t, a, b) => if a ≤ n ∧ n ≤ b then (vol, t) else (vol, phase)
    | none => (vol, phase)

/-- The tail of `parseItemLine` once the leading `- **` (and optional `第`)
have been consumed; `parseItemLine` on such a line reduces to it. -/
def itemTail (cs4 : List Char) : Option (Nat × Nat × String) :=
  let (ds1, cs5) := cs4.span Char.isDigit
  if ds1 = [] then none
  else
    let startCh := digitsToNat ds1
    let parsedEnd : Option (Nat × List Char) :=
      match cs5 with
      | '-' :: cs6 =>
        let (ds2, cs7) := cs6.span Char.isDigit
        if ds2 = [] then none else some (digitsToNat ds2, cs7)
      | _ => some (startCh, cs5)
    match parsedEnd with
    | none => none
    | some (endCh, cs7) =>
      match cs7 with
      | '章' :: '*' :: '*' :: sep :: rest =>
        if (sep = ':' ∨ sep = '：') ∧ rest ≠ [] then
          some (startCh, endCh, String.mk rest)
        else none
      | _ => none

/-! ## Helper lemmas -/

theorem mergeStatusEntries_level (c : CharState) (u : CharUpdate) :
    (mergeStatusEntries c u).level = c.level ∧
    (mergeStatusEntries c u).name = c.name := by
  unfold mergeStatusEntries
  dsimp only
  split <;> exact ⟨rfl, rfl⟩

theorem mergeScalars_frame (c : CharState) (u : CharUpdate) :
    (mergeScalars c u).current_status = c.current_status ∧
    (mergeScalars c u).level = c.level ∧
    (mergeScalars c u).name = c.name := by
  unfold mergeScalars
  dsimp only
  cases u.status_tags <;> dsimp only <;> split_ifs <;> exact ⟨rfl, rfl, rfl⟩

theorem collectionsFrame_trans {a b c : CharState}
    (h1 : collectionsFrame a b) (h2 : collectionsFrame b c) :
    collectionsFrame a c := by
  obtain ⟨x1, y1, z1⟩ := h1
  obtain ⟨x2, y2, z2⟩ := h2
  exact ⟨x1.trans x2, y1.trans y2, z1.trans z2⟩

theorem stepActionHistory_frame (es : List ActionEntry) (c : CharState) :
    collectionsFrame (stepActionHistory es c) c := by
  unfold stepActionHistory; split_ifs <;> exact ⟨rfl, rfl, rfl⟩

theorem stepShortMemory_frame (ms : List String) (c : CharState) :
    collectionsFrame (stepShortMemory ms c) c := by
  unfold stepShortMemory; split_ifs <;> exact ⟨rfl, rfl, rfl⟩

theorem stepLongMemory_frame (ms : List String) (c : CharState) :
    collectionsFrame (stepLongMemory ms c) c := by
  unfold stepLongMemory; split_ifs <;> exact ⟨rfl, rfl, rfl⟩

theorem stepBeliefMemory_frame (ms : List String) (c : CharState) :
    collectionsFrame (stepBeliefMemory ms c) c := by
  unfold stepBeliefMemory; split_ifs <;> exact ⟨rfl, rfl, rfl⟩

theorem stepAbilities_frame (xs : List String) (c : CharState) :
    collectionsFrame (stepAbilities xs c) c := by
  unfold stepAbilities; split_ifs <;> exact ⟨rfl, rfl, rfl⟩

theorem stepItems_frame (xs : List String) (c : CharState) :
    collectionsFrame (stepItems xs c) c := by
  unfold stepItems; split_ifs <;> exact ⟨rfl, rfl, rfl⟩

theorem stepRelationships_frame (us : List RelationshipUpdate) (c : CharState) :
    collectionsFrame (stepRelationships us c) c := ⟨rfl, rfl, rfl⟩

theorem stepRelChanges_frame (cs : Option (List String)) (c : CharState) :
    collectionsFrame (stepRelChanges cs c) c := by
  unfold stepRelChanges
  cases cs <;> exact ⟨rfl, rfl, rfl⟩

theorem mergeCollections_frame (n : Nat) (c : CharState) (u : CharUpdate) :
    collectionsFrame (mergeCollections n c u) c := by
  unfold mergeCollections
  exact collectionsFrame_trans (stepRelChanges_frame _ _)
    (collectionsFrame_trans (stepRelationships_frame _ _)
      (collectionsFrame_trans (stepItems_frame _ _)
        (collectionsFrame_trans (stepAbilities_frame _ _)
          (collectionsFrame_trans (stepBeliefMemory_frame _ _)
            (collectionsFrame_trans (stepLongMemory_frame _ _)
              (collectionsFrame_trans (stepShortMemory_frame _ _)
                (stepActionHistory_frame _ _)))))))

/-! ## Claim theorems -/

/-- C10: with at least one chapter and a latest word count below the 3000
threshold, the generation target is `append` on the same chapter with
`3000 − length + 500` target words; otherwise it is `new` on the next
chapter with `default + 500` target words. -/
theorem append_vs_new_mode (chNum chLen defaultWords : Nat) :
    (0 < chNum → chLen < MIN_CHAPTER_LENGTH →
      resolveGenerationTarget chNum chLen defaultWords =
        ⟨"append", chNum, MIN_CHAPTER_LENGTH - chLen + 500⟩) ∧
    (MIN_CHAPTER_LENGTH ≤ chLen ∨ chNum = 0 →
      resolveGenerationTarget chNum chLen defaultWords =
        ⟨"new", chNum + 1, defaultWords + 500⟩) := by
  constructor
  · intro h1 h2
    unfold resolveGenerationTarget
    rw [if_pos ⟨h2, h1⟩]
  · intro h
    unfold resolveGenerationTarget
    rw [if_neg]
    rintro ⟨hlt, hpos⟩
    rcases h with h | h
    · exact absurd hlt (not_lt.mpr h)
    · omega

/-- C10 witness: word count 1200 yields an append target of 2300 words on
the same chapter; word count 3500 yields a new chapter. -/
theorem append_vs_new_mode_witness :
    resolveGenerationTarget 3 1200 3000 = ⟨"append", 3, 2300⟩ ∧
    resolveGenerationTarget 3 3500 3000 = ⟨"new", 4, 3500⟩ :=
  ⟨(append_vs_new_mode 3 1200 3000).1 (by decide) (by decide),
   (append_vs_new_mode 3 3500 3000).2 (Or.inl (by decide))⟩

/-- C6: the write-back never happens.  A recovered update document is
merged into the in-memory world document, but the save call raises
`AttributeError` (the generator has no `edit_tools`), so on every input —
recovery failed or not — nothing is ever passed to `save_world_state` and
the cycle reports `updated = false`, contradicting the spec's claim that
the whole merged document is saved back with `updated = true`. -/
theorem world_save_attribute_error (w : WorldData) (n : Nat)
    (content : String) (doc : UpdateDoc) :
    worldStateUpdate (some w) n content (some doc) =
      ⟨some (mergeUpdates w n content doc), none, false⟩ ∧
    worldStateUpdate (some w) n content none = ⟨some w, none, false⟩ ∧
    (∀ r, (worldStateUpdate (some w) n content r).saved = none) ∧
    (∀ r, (worldStateUpdate (some w) n content r).updated = false) := by
  refine ⟨rfl, rfl, ?_, ?_⟩ <;> rintro (_ | _) <;> rfl

/-- C5: with a preparation bundle carrying a non-null thinking plan and a
thinking engine present, `invoke(approved=false)` halts awaiting approval
and persists nothing; re-invoking with `approved=true` and the same bundle
runs generate and persist and returns a saved path. -/
theorem approval_gate (env : WorkflowEnv) (p : Preparation) (plan : String)
    (r : GenResult) (hplan : p.thinking_plan = some plan)
    (hengine : env.thinking_engine = true)
    (hgen : env.generate_result p = some r) :
    (invokeFallback env false (some p)).awaiting_approval = some true ∧
    (invokeFallback env false (some p)).saved_path = none ∧
    (invokeFallback env false (some p)).result = none ∧
    (invokeFallback env true (some p)).awaiting_approval = some false ∧
    (invokeFallback env true (some p)).error = none ∧
    (invokeFallback env true (some p)).saved_path =
      some (env.save_chapter r.chapter r.title r.full_text) := by
  have h1 : invokeFallback env false (some p) =
      nodeReview (nodePrepare env (initialWState false (some p))) := by
    unfold invokeFallback
    rw [if_pos]
    unfold nodeReview nodePrepare initialWState
    dsimp only
    rw [hplan, hengine]
    rfl
  have h2 : (invokeFallback env true (some p)) =
      nodePersist env (nodeGenerate env
        (nodeReview (nodePrepare env (initialWState true (some p))))) := by
    unfold invokeFallback
    rw [if_neg, if_neg]
    · unfold nodeGenerate nodeReview nodePrepare initialWState
      dsimp only
      rw [hgen]
      simp
    · unfold nodeReview nodePrepare initialWState
      dsimp only
      simp
  refine ⟨?_, ?_, ?_, ?_, ?_, ?_⟩
  · rw [h1]; unfold nodeReview nodePrepare initialWState; dsimp only
    rw [hplan, hengine]; rfl
  · rw [h1]; rfl
  · rw [h1]; rfl
  · rw [h2]
    unfold nodePersist nodeGenerate nodeReview nodePrepare initialWState
    dsimp only
    rw [hgen]
    dsimp only
    split <;> simp
  · rw [h2]
    unfold nodePersist nodeGenerate nodeReview nodePrepare initialWState
    dsimp only
    rw [hgen]
    dsimp only
    split <;> simp
  · rw [h2]
    unfold nodePersist nodeGenerate nodeReview nodePrepare initialWState
    dsimp only
    rw [hgen]
    dsimp only
    split <;> simp

/-- C5 witness: the concrete environment `c5Env` halts awaiting approval
without a saved path, then persists chapter 7 once approved. -/
theorem approval_gate_witness :
    (invokeFallback c5Env false (some c5Prep)).awaiting_approval = some true ∧
    (invokeFallback c5Env false (some c5Prep)).saved_path = none ∧
    (invokeFallback c5Env false (some c5Prep)).result = none ∧
    (invokeFallback c5Env true (some c5Prep)).awaiting_approval = some false ∧
    (invokeFallback c5Env true (some c5Prep)).error = none ∧
    (invokeFallback c5Env true (some c5Prep)).saved_path = some "7_决战" :=
  approval_gate c5Env c5Prep "plan" c5Result rfl rfl rfl

/-- C4 counterexample: `"大帝"` has no separator, no rank-indicator token
and fewer than 4 characters, so the claim requires it to be ignored with a
"too coarse" log; the code instead treats it as granular and mutates the
character's level with no log. -/
theorem coarse_level_cex :
    isGranularLevel "大帝" = true ∧
    (applyUpdateToChar none 1 "" c4Char c4Update).1.level = "大帝" ∧
    (applyUpdateToChar none 1 "" c4Char c4Update).1.current_status =
      ([] : List String) := by
  refine ⟨by decide, ?_, ?_⟩ <;> decide

/-- C4 (amended): exactly the proposed levels whose trimmed text fails the
granularity heuristic — the blocked vocabulary, the empty string, and
nothing else that is non-empty — are treated as a no-op: level and
progression untouched, and an explicit "ignored: too coarse" status entry
appended; every member of the blocked vocabulary fails the heuristic. -/
theorem coarse_level_ignored (prog? : Option Progression) (n : Nat)
    (content : String) (c : CharState) (u : CharUpdate)
    (hne : u.level_update ≠ "")
    (hcoarse : isGranularLevel (pyStrip u.level_update) = false) :
    (applyUpdateToChar prog? n content c u).1.level = c.level ∧
    (applyUpdateToChar prog? n content c u).1.current_status =
      takeLast 10 ((mergeStatusEntries c u).current_status ++
        ["境界更新被忽略（过粗）: " ++ (pyStrip u.level_update)]) ∧
    (applyUpdateToChar prog? n content c u).2 = prog? ∧
    (∀ s ∈ blockedLevels, isGranularLevel s = false) := by
  have hprog : progressOnlyMark prog? (mergeScalars (mergeStatusEntries c u) u) u content
      = prog? := by
    unfold progressOnlyMark
    rw [if_neg]
    rintro ⟨-, h⟩
    exact hne h
  have hlevel : levelStage prog? (mergeScalars (mergeStatusEntries c u) u) u content =
      (appendStatus ("境界更新被忽略（过粗）: " ++ (pyStrip u.level_update))
        (mergeScalars (mergeStatusEntries c u) u), prog?) := by
    unfold levelStage
    rw [if_pos hne]
    dsimp only
    rw [if_neg]
    simp [hcoarse]
  unfold applyUpdateToChar
  dsimp only
  rw [hprog, hlevel]
  dsimp only
  obtain ⟨hs, hl, -⟩ := mergeCollections_frame n
    (appendStatus ("境界更新被忽略（过粗）: " ++ (pyStrip u.level_update))
      (mergeScalars (mergeStatusEntries c u) u)) u
  obtain ⟨hs2, hl2, -⟩ := mergeScalars_frame (mergeStatusEntries c u) u
  refine ⟨?_, ?_, rfl, by decide⟩
  · rw [hl]
    show (mergeScalars (mergeStatusEntries c u) u).level = c.level
    rw [hl2, (mergeStatusEntries_level c u).1]
  · rw [hs]
    show takeLast 10 ((mergeScalars (mergeStatusEntries c u) u).current_status ++ _) = _
    rw [hs2]

/-- C4 witness: the blocked placeholder `"凡人"` proposed for a non-gated
character leaves the level untouched and logs the ignored entry. -/
theorem coarse_level_ignored_witness :
    (applyUpdateToChar none 2 "" c4Char
        { c4Update with level_update := "凡人" }).1.level = "凡人" ∧
    (applyUpdateToChar none 2 "" c4Char
        { c4Update with level_update := "凡人" }).1.current_status =
      ["境界更新被忽略（过粗）: 凡人"] := by
  have h := coarse_level_ignored none 2 "" c4Char
    { c4Update with level_update := "凡人" } (by decide) (by decide)
  exact ⟨h.1, by rw [h.2.1]; decide⟩

theorem updateFirstRelationship_nil (t rt d : String) :
    updateFirstRelationship [] t rt d = [] := rfl

theorem updateFirstRelationship_cons (r : Relationship)
    (rest : List Relationship) (t rt d : String) :
    updateFirstRelationship (r :: rest) t rt d =
      if r.target = t then
        { r with relation_type := if rt ≠ "" then rt else r.relation_type,
                 description := if d ≠ "" then d else r.description } :: rest
      else r :: updateFirstRelationship rest t rt d := rfl

theorem updateFirstRelationship_targets (rels : List Relationship)
    (t rt d : String) :
    (updateFirstRelationship rels t rt d).map Relationship.target =
      rels.map Relationship.target := by
  induction rels with
  | nil => rfl
  | cons r rest ih =>
    rw [updateFirstRelationship_cons]
    split_ifs <;> simp [ih]

theorem updateFirstRelationship_append_nomatch (rels : List Relationship)
    (e : Relationship) (t rt d : String) (h : ∀ r ∈ rels, r.target ≠ t) :
    updateFirstRelationship (rels ++ [e]) t rt d =
      rels ++ updateFirstRelationship [e] t rt d := by
  induction rels with
  | nil => simp
  | cons r rest ih =>
    have hr : r.target ≠ t := h r (List.mem_cons_self r rest)
    have hrest : ∀ x ∈ rest, x.target ≠ t := fun x hx => h x (List.mem_cons_of_mem r hx)
    rw [List.cons_append, updateFirstRelationship_cons, if_neg hr, ih hrest,
      List.cons_append]

theorem relationshipStep_pairwise (rels : List Relationship)
    (u : RelationshipUpdate)
    (h : rels.Pairwise (fun a b => a.target ≠ b.target)) :
    (applyRelationshipUpdates.step rels u).Pairwise
      (fun a b => a.target ≠ b.target) := by
  unfold applyRelationshipUpdates.step
  dsimp only
  by_cases h1 : pyStrip u.target = ""
  · rw [if_pos h1]; exact h
  · rw [if_neg h1]
    by_cases h2 : (rels.any fun r => decide (r.target = pyStrip u.target)) = true
    · rw [if_pos h2]
      have htg := updateFirstRelationship_targets rels (pyStrip u.target)
        (pyStrip (if u.relation_type ≠ "" then u.relation_type else u.type))
        (pyStrip u.description)
      have hp2 : (rels.map Relationship.target).Pairwise (· ≠ ·) :=
        (List.pairwise_map).mpr h
      have hp3 : ((updateFirstRelationship rels (pyStrip u.target)
          (pyStrip (if u.relation_type ≠ "" then u.relation_type else u.type))
          (pyStrip u.description)).map Relationship.target).Pairwise (· ≠ ·) := by
        rw [htg]; exact hp2
      exact (List.pairwise_map).mp hp3
    · rw [if_neg h2]
      rw [List.pairwise_append]
      refine ⟨h, List.pairwise_singleton _ _, ?_⟩
      intro a ha b hb
      simp only [List.mem_singleton] at hb
      subst hb
      simp only [List.any_eq_true, decide_eq_true_eq, not_exists] at h2
      intro hab
      exact h2 a ⟨ha, hab⟩

theorem applyRelationshipUpdates_pairwise (rels : List Relationship)
    (us : List RelationshipUpdate)
    (h : rels.Pairwise (fun a b => a.target ≠ b.target)) :
    (applyRelationshipUpdates rels us).Pairwise
      (fun a b => a.target ≠ b.target) := by
  unfold applyRelationshipUpdates
  induction us generalizing rels with
  | nil => exact h
  | cons u rest ih =>
    exact ih (applyRelationshipUpdates.step rels u) (relationshipStep_pairwise rels u h)

/-- C8: relationship merges keep at most one entry per target, and merging
two updates for the same target upserts one entry in which the second
update's non-empty fields win and its empty fields fall back to the first
update's stored values (`relation_type` defaulting to `"未知"` on first
insert). -/
theorem relationship_upsert (rels : List Relationship)
    (us : List RelationshipUpdate) (u1 u2 : RelationshipUpdate) (t : String)
    (hpair : rels.Pairwise (fun a b => a.target ≠ b.target))
    (ht : t ≠ "") (ht1 : pyStrip u1.target = t) (ht2 : pyStrip u2.target = t)
    (hfresh : ∀ r ∈ rels, r.target ≠ t) :
    (applyRelationshipUpdates rels us).Pairwise
      (fun a b => a.target ≠ b.target) ∧
    applyRelationshipUpdates rels [u1, u2] =
      rels ++ [{
        target := t,
        relation_type :=
          (if pyStrip (if u2.relation_type ≠ "" then u2.relation_type else u2.type) ≠ ""
           then pyStrip (if u2.relation_type ≠ "" then u2.relation_type else u2.type)
           else if pyStrip (if u1.relation_type ≠ "" then u1.relation_type else u1.type) ≠ ""
           then pyStrip (if u1.relation_type ≠ "" then u1.relation_type else u1.type)
           else "未知"),
        description :=
          (if pyStrip u2.description ≠ "" then pyStrip u2.description
           else pyStrip u1.description) }] := by
  refine ⟨applyRelationshipUpdates_pairwise rels us hpair, ?_⟩
  have hany1 : rels.any (fun r => r.target = t) = false := by
    simp only [List.any_eq_false, decide_eq_true_eq]
    exact hfresh
  have hstep1 : applyRelationshipUpdates.step rels u1 =
      rels ++ [{
        target := t,
        relation_type :=
          (if pyStrip (if u1.relation_type ≠ "" then u1.relation_type else u1.type) ≠ ""
           then pyStrip (if u1.relation_type ≠ "" then u1.relation_type else u1.type)
           else "未知"),
        description := pyStrip u1.description }] := by
    unfold applyRelationshipUpdates.step
    dsimp only
    rw [ht1, if_neg (fun hh => ht hh), hany1]
    simp
  show applyRelationshipUpdates.step (applyRelationshipUpdates.step rels u1) u2 = _
  rw [hstep1]
  unfold applyRelationshipUpdates.step
  dsimp only
  rw [ht2, if_neg (fun hh => ht hh)]
  rw [if_pos (by simp), updateFirstRelationship_append_nomatch rels _ t _ _ hfresh,
    updateFirstRelationship_cons]
  rw [if_pos rfl]

/-- C8 witness: inserting a relationship for 苏绾 and then merging an
empty-fielded second update keeps one entry with the first update's stored
values. -/
theorem relationship_upsert_witness :
    (applyRelationshipUpdates [] [⟨"苏绾", "盟友", "", "并肩作战"⟩]).Pairwise
      (fun a b => a.target ≠ b.target) ∧
    applyRelationshipUpdates []
        [⟨"苏绾", "盟友", "", "并肩作战"⟩, ⟨"苏绾", "", "", ""⟩] =
      [{ target := "苏绾", relation_type := "盟友", description := "并肩作战" }] := by
  have h := relationship_upsert [] [⟨"苏绾", "盟友", "", "并肩作战"⟩]
    ⟨"苏绾", "盟友", "", "并肩作战"⟩ ⟨"苏绾", "", "", ""⟩ "苏绾"
    (List.Pairwise.nil) (by decide) (by decide) (by decide) (by intro r hr; cases hr)
  refine ⟨h.1, ?_⟩
  rw [h.2]
  decide

theorem takeLast_suffix (n : Nat) (l : List α) : takeLast n l <:+ l :=
  List.drop_suffix _ l

theorem takeLast_length_le (n : Nat) (l : List α) : (takeLast n l).length ≤ n := by
  unfold takeLast
  rw [List.length_drop]
  omega

theorem suffix_append_same {l₁ l₂ : List α} (h : l₁ <:+ l₂) (l : List α) :
    l₁ ++ l <:+ l₂ ++ l := by
  obtain ⟨t, ht⟩ := h
  exact ⟨t, by rw [← ht, List.append_assoc]⟩

theorem dedupeActionHistory_pos (l : List ActionEntry) :
    dedupeActionHistory l 40 = takeLast 40 (dedupeActionHistory l 0) := by
  unfold dedupeActionHistory
  norm_num

/-- Fields untouched by the status, scalar and level stages and by the
collection steps other than their own. -/
theorem mergeStatusEntries_mem (c : CharState) (u : CharUpdate) :
    (mergeStatusEntries c u).action_history = c.action_history ∧
    (mergeStatusEntries c u).memory_short_term = c.memory_short_term := by
  unfold mergeStatusEntries
  dsimp only
  split_ifs <;> exact ⟨rfl, rfl⟩

theorem mergeScalars_mem (c : CharState) (u : CharUpdate) :
    (mergeScalars c u).action_history = c.action_history ∧
    (mergeScalars c u).memory_short_term = c.memory_short_term := by
  unfold mergeScalars
  dsimp only
  cases u.status_tags <;> dsimp only <;> split_ifs <;> exact ⟨rfl, rfl⟩

theorem levelStage_char_cases (prog? : Option Progression) (c : CharState)
    (u : CharUpdate) (content : String) :
    (levelStage prog? c u content).1 = c ∨
    (∃ lv, (levelStage prog? c u content).1 = { c with level := lv }) ∨
    (∃ line, (levelStage prog? c u content).1 = appendStatus line c) := by
  unfold levelStage
  dsimp only
  split_ifs
  · exact Or.inr (Or.inl ⟨pyStrip u.level_update, rfl⟩)
  · exact Or.inr (Or.inr ⟨_, rfl⟩)
  · exact Or.inl rfl
  · exact Or.inr (Or.inr ⟨_, rfl⟩)
  · exact Or.inl rfl

theorem levelStage_mem (prog? : Option Progression) (c : CharState)
    (u : CharUpdate) (content : String) :
    (levelStage prog? c u content).1.action_history = c.action_history ∧
    (levelStage prog? c u content).1.memory_short_term = c.memory_short_term := by
  rcases levelStage_char_cases prog? c u content with h | ⟨lv, h⟩ | ⟨line, h⟩ <;>
    rw [h] <;> exact ⟨rfl, rfl⟩

theorem stepActionHistory_short (es : List ActionEntry) (c : CharState) :
    (stepActionHistory es c).memory_short_term = c.memory_short_term := by
  unfold stepActionHistory; split_ifs <;> rfl

theorem stepShortMemory_action (ms : List String) (c : CharState) :
    (stepShortMemory ms c).action_history = c.action_history := by
  unfold stepShortMemory; split_ifs <;> rfl

theorem laterSteps_mem (lm bm ab it : List String)
    (ru : List RelationshipUpdate) (rc : Option (List String)) (c : CharState) :
    (stepRelChanges rc (stepRelationships ru (stepItems it (stepAbilities ab
        (stepBeliefMemory bm (stepLongMemory lm c)))))).action_history =
      c.action_history ∧
    (stepRelChanges rc (stepRelationships ru (stepItems it (stepAbilities ab
        (stepBeliefMemory bm (stepLongMemory lm c)))))).memory_short_term =
      c.memory_short_term := by
  have h1 : ∀ d : CharState, (stepLongMemory lm d).action_history = d.action_history ∧
      (stepLongMemory lm d).memory_short_term = d.memory_short_term := by
    intro d; unfold stepLongMemory; split_ifs <;> exact ⟨rfl, rfl⟩
  have h2 : ∀ d : CharState, (stepBeliefMemory bm d).action_history = d.action_history ∧
      (stepBeliefMemory bm d).memory_short_term = d.memory_short_term := by
    intro d; unfold stepBeliefMemory; split_ifs <;> exact ⟨rfl, rfl⟩
  have h3 : ∀ d : CharState, (stepAbilities ab d).action_history = d.action_history ∧
      (stepAbilities ab d).memory_short_term = d.memory_short_term := by
    intro d; unfold stepAbilities; split_ifs <;> exact ⟨rfl, rfl⟩
  have h4 : ∀ d : CharState, (stepItems it d).action_history = d.action_history ∧
      (stepItems it d).memory_short_term = d.memory_short_term := by
    intro d; unfold stepItems; split_ifs <;> exact ⟨rfl, rfl⟩
  have h6 : ∀ d : CharState, (stepRelChanges rc d).action_history = d.action_history ∧
      (stepRelChanges rc d).memory_short_term = d.memory_short_term := by
    intro d; unfold stepRelChanges; cases rc <;> exact ⟨rfl, rfl⟩
  constructor
  · rw [(h6 _).1]
    show (stepRelationships ru _).action_history = _
    rw [show ∀ d : CharState, (stepRelationships ru d).action_history = d.action_history
        from fun d => rfl]
    rw [(h4 _).1, (h3 _).1, (h2 _).1, (h1 _).1]
  · rw [(h6 _).2]
    show (stepRelationships ru _).memory_short_term = _
    rw [show ∀ d : CharState, (stepRelationships ru d).memory_short_term = d.memory_short_term
        from fun d => rfl]
    rw [(h4 _).2, (h3 _).2, (h2 _).2, (h1 _).2]

theorem mergeCollections_action (n : Nat) (c : CharState) (u : CharUpdate) :
    (mergeCollections n c u).action_history =
      (stepActionHistory (buildActionEntries n u.action_history_entries) c).action_history := by
  unfold mergeCollections
  rw [(laterSteps_mem _ _ _ _ _ _ _).1, stepShortMemory_action]

theorem mergeCollections_short (n : Nat) (c : CharState) (u : CharUpdate) :
    (mergeCollections n c u).memory_short_term =
      (stepShortMemory
        (shortMemoriesOf u (buildActionEntries n u.action_history_entries))
        c).memory_short_term := by
  unfold mergeCollections
  rw [(laterSteps_mem _ _ _ _ _ _ _).2]
  unfold stepShortMemory
  split_ifs <;> rw [stepActionHistory_short]

theorem mergeStatusEntries_status_suffix (c : CharState) (u : CharUpdate) :
    (mergeStatusEntries c u).current_status <:+
      c.current_status ++ statusEntriesOf u ∧
    (c.current_status.length ≤ 10 →
      (mergeStatusEntries c u).current_status.length ≤ 10) := by
  unfold mergeStatusEntries
  dsimp only
  split_ifs with h
  · exact ⟨takeLast_suffix _ _, fun _ => takeLast_length_le _ _⟩
  · push_neg at h
    rw [h]
    exact ⟨by simp, fun hh => hh⟩

/-- C7: one merge never pushes `action_history` over 40, `memory_short_term`
over 30 or `current_status` over 10 (so any fold of merges keeps the caps),
and each truncated collection is a suffix of its untruncated merge —
truncation drops the head, never the tail. -/
theorem bounded_collections (prog? : Option Progression) (n : Nat)
    (content : String) (c : CharState) (u : CharUpdate) :
    (c.action_history.length ≤ 40 →
      (applyUpdateToChar prog? n content c u).1.action_history.length ≤ 40) ∧
    (c.memory_short_term.length ≤ 30 →
      (applyUpdateToChar prog? n content c u).1.memory_short_term.length ≤ 30) ∧
    (c.current_status.length ≤ 10 →
      (applyUpdateToChar prog? n content c u).1.current_status.length ≤ 10) ∧
    (buildActionEntries n u.action_history_entries ≠ [] →
      (applyUpdateToChar prog? n content c u).1.action_history <:+
        dedupeActionHistory
          (c.action_history ++ buildActionEntries n u.action_history_entries) 0) ∧
    (shortMemoriesOf u (buildActionEntries n u.action_history_entries) ≠ [] →
      (applyUpdateToChar prog? n content c u).1.memory_short_term <:+
        dedupeKeepOrder (c.memory_short_term ++
          shortMemoriesOf u (buildActionEntries n u.action_history_entries))) ∧
    (∃ extra : List String, extra.length ≤ 1 ∧
      (applyUpdateToChar prog? n content c u).1.current_status <:+
        c.current_status ++ statusEntriesOf u ++ extra) := by
  have happ : (applyUpdateToChar prog? n content c u).1 =
      mergeCollections n
        (levelStage (progressOnlyMark prog? (mergeScalars (mergeStatusEntries c u) u) u content)
          (mergeScalars (mergeStatusEntries c u) u) u content).1 u := rfl
  set c1 := mergeStatusEntries c u with hc1
  set c2 := mergeScalars c1 u with hc2
  set c4 := (levelStage (progressOnlyMark prog? c2 u content) c2 u content).1 with hc4
  have hact4 : c4.action_history = c.action_history := by
    rw [hc4, (levelStage_mem _ _ _ _).1, hc2, (mergeScalars_mem _ _).1, hc1,
      (mergeStatusEntries_mem _ _).1]
  have hshort4 : c4.memory_short_term = c.memory_short_term := by
    rw [hc4, (levelStage_mem _ _ _ _).2, hc2, (mergeScalars_mem _ _).2, hc1,
      (mergeStatusEntries_mem _ _).2]
  have hst2 : c2.current_status = c1.current_status := (mergeScalars_frame c1 u).1
  set es := buildActionEntries n u.action_history_entries with hes
  set ms := shortMemoriesOf u es with hms
  have hactF : (applyUpdateToChar prog? n content c u).1.action_history =
      (stepActionHistory es c4).action_history := by
    rw [happ, mergeCollections_action]
  have hshortF : (applyUpdateToChar prog? n content c u).1.memory_short_term =
      (stepShortMemory ms c4).memory_short_term := by
    rw [happ, mergeCollections_short]
  have hstF : (applyUpdateToChar prog? n content c u).1.current_status =
      c4.current_status := by
    rw [happ]
    exact (mergeCollections_frame n c4 u).1
  have hstatus := mergeStatusEntries_status_suffix c u
  have hst4 : c4.current_status = c1.current_status ∨
      ∃ line, c4.current_status = takeLast 10 (c1.current_status ++ [line]) := by
    rcases levelStage_char_cases (progressOnlyMark prog? c2 u content) c2 u content with
      h | ⟨lv, h⟩ | ⟨line, h⟩
    · rw [hc4, h, hst2]
      exact Or.inl rfl
    · rw [hc4, h]
      exact Or.inl (by rw [show ({ c2 with level := lv } : CharState).current_status
        = c2.current_status from rfl, hst2])
    · rw [hc4, h]
      refine Or.inr ⟨line, ?_⟩
      rw [show (appendStatus line c2).current_status
        = takeLast 10 (c2.current_status ++ [line]) from rfl, hst2]
  refine ⟨?_, ?_, ?_, ?_, ?_, ?_⟩
  · intro hcap
    rw [hactF]
    unfold stepActionHistory
    split_ifs
    · show (dedupeActionHistory (c4.action_history ++ es) 40).length ≤ 40
      rw [dedupeActionHistory_pos]
      exact takeLast_length_le _ _
    · rw [hact4]; exact hcap
  · intro hcap
    rw [hshortF]
    unfold stepShortMemory
    split_ifs
    · show (takeLast 30 (dedupeKeepOrder (c4.memory_short_term ++ ms))).length ≤ 30
      exact takeLast_length_le _ _
    · rw [hshort4]; exact hcap
  · intro hcap
    rw [hstF]
    rcases hst4 with h | ⟨line, h⟩
    · rw [h]; exact hstatus.2 hcap
    · rw [h]; exact takeLast_length_le _ _
  · intro hne
    rw [hactF]
    unfold stepActionHistory
    rw [if_pos hne]
    show dedupeActionHistory (c4.action_history ++ es) 40 <:+
      dedupeActionHistory (c.action_history ++ es) 0
    rw [dedupeActionHistory_pos, hact4]
    exact takeLast_suffix _ _
  · intro hne
    rw [hshortF]
    unfold stepShortMemory
    rw [if_pos hne]
    show takeLast 30 (dedupeKeepOrder (c4.memory_short_term ++ ms)) <:+
      dedupeKeepOrder (c.memory_short_term ++ ms)
    rw [hshort4]
    exact takeLast_suffix _ _
  · rw [hstF]
    rcases hst4 with h | ⟨line, h⟩
    · refine ⟨[], by simp, ?_⟩
      rw [h, List.append_nil]
      exact hstatus.1
    · refine ⟨[line], by simp, ?_⟩
      rw [h]
      exact (takeLast_suffix _ _).trans (suffix_append_same hstatus.1 [line])

/-- C7 witness: merging `c7Update` into the capped `c7Char` keeps every
bound, and the merged collections are suffixes of their untruncated
merges. -/
theorem bounded_collections_witness :
    (applyUpdateToChar none 5 "" c7Char c7Update).1.action_history.length ≤ 40 ∧
    (applyUpdateToChar none 5 "" c7Char c7Update).1.memory_short_term.length ≤ 30 ∧
    (applyUpdateToChar none 5 "" c7Char c7Update).1.current_status.length ≤ 10 ∧
    (applyUpdateToChar none 5 "" c7Char c7Update).1.action_history <:+
      dedupeActionHistory (c7Char.action_history ++
        buildActionEntries 5 c7Update.action_history_entries) 0 ∧
    (applyUpdateToChar none 5 "" c7Char c7Update).1.memory_short_term <:+
      dedupeKeepOrder (c7Char.memory_short_term ++
        shortMemoriesOf c7Update (buildActionEntries 5 c7Update.action_history_entries)) := by
  have h := bounded_collections none 5 "" c7Char c7Update
  exact ⟨h.1 (by decide), h.2.1 (by decide), h.2.2.1 (by decide),
    h.2.2.2.1 (by decide), h.2.2.2.2.1 (by decide)⟩

/-! ## Gate lemmas -/

theorem getD_set_self (l : List α) (i : Nat) (a d : α) (h : i < l.length) :
    (l.set i a).getD i d = a := by
  induction l generalizing i with
  | nil => simp at h
  | cons x rest ih =>
    cases i with
    | zero => rfl
    | succ i => exact ih i (by simpa using h)

theorem getD_set_ne (l : List α) (i j : Nat) (a d : α) (h : i ≠ j) :
    (l.set i a).getD j d = l.getD j d := by
  induction l generalizing i j with
  | nil => simp [List.set]
  | cons x rest ih =>
    cases i with
    | zero =>
      cases j with
      | zero => exact absurd rfl h
      | succ j => rfl
    | succ i =>
      cases j with
      | zero => rfl
      | succ j => exact ih i j (fun hh => h (by rw [hh]))

theorem set_getD_self (l : List α) (i : Nat) (d : α) :
    l.set i (l.getD i d) = l := by
  induction l generalizing i with
  | nil => rfl
  | cons x rest ih =>
    cases i with
    | zero => rfl
    | succ i =>
      show x :: rest.set i (rest.getD i d) = x :: rest
      rw [ih i]

theorem length_set (l : List α) (i : Nat) (a : α) :
    (l.set i a).length = l.length := List.length_set l i a

theorem getActiveTransition_of_valid (p : Progression) (idx : Nat)
    (h1 : p.active_transition_index = some idx)
    (h2 : idx < p.transitions.length) :
    getActiveTransition p = some (idx, p) := by
  have hne : p.transitions.isEmpty = false := by
    cases hts : p.transitions
    · rw [hts] at h2; simp at h2
    · rfl
  unfold getActiveTransition
  rw [hne, h1]
  simp [h2]

theorem markRequirementList_nohit (explicit : List String) (combined : String)
    (st lb : String) (reqs : List Requirement)
    (h : ∀ r ∈ reqs, pyStrip r.name ≠ "" → isRequirementDone r.status = false →
      requirementHit explicit combined r = false) :
    markRequirementList explicit combined st lb reqs = (reqs, []) := by
  induction reqs with
  | nil => rfl
  | cons req rest ih =>
    have hrest := ih (fun r hr => h r (List.mem_cons_of_mem req hr))
    unfold markRequirementList
    rw [hrest]
    dsimp only
    by_cases hskip : pyStrip req.name = "" ∨ isRequirementDone req.status
    · rw [if_pos hskip]
    · rw [if_neg hskip]
      push_neg at hskip
      have hdone : isRequirementDone req.status = false :=
        Bool.not_eq_true _ ▸ eq_false_of_ne_true hskip.2
      have hhit := h req (List.mem_cons_self req rest) hskip.1 hdone
      rw [if_neg (by rw [hhit]; exact Bool.false_ne_true)]

theorem set_of_length_le (l : List α) (i : Nat) (a : α) (h : l.length ≤ i) :
    l.set i a = l := by
  induction l generalizing i with
  | nil => rfl
  | cons x rest ih =>
    cases i with
    | zero => simp at h
    | succ i =>
      show x :: rest.set i a = x :: rest
      rw [ih i (by simpa using h)]

theorem getD_set_cases (l : List α) (i k : Nat) (a d : α) :
    (l.set i a).getD k d =
      if i = k ∧ i < l.length then a else l.getD k d := by
  by_cases h1 : i = k
  · subst h1
    by_cases h2 : i < l.length
    · rw [getD_set_self l i a d h2, if_pos ⟨rfl, h2⟩]
    · rw [if_neg (fun hc => h2 hc.2), set_of_length_le l i a (by omega)]
  · rw [getD_set_ne l i k a d h1, if_neg (fun hc => h1 hc.1)]

theorem markTransitionProgress_transitions (p : Progression) (idx : Nat)
    (u : CharUpdate) (content : String) :
    (markTransitionProgress p idx u content).1.transitions =
      p.transitions.set idx
        (markedTransition (p.transitions.getD idx default) u content) := rfl

theorem markedTransition_frame (t : Transition) (u : CharUpdate)
    (content : String) :
    (markedTransition t u content).from_level = t.from_level ∧
    (markedTransition t u content).to_level = t.to_level ∧
    (markedTransition t u content).completed = t.completed := ⟨rfl, rfl, rfl⟩

theorem markTransitionProgress_frame (p : Progression) (idx : Nat)
    (u : CharUpdate) (content : String) :
    (markTransitionProgress p idx u content).1.current_level = p.current_level ∧
    (markTransitionProgress p idx u content).1.active_transition_index =
      p.active_transition_index ∧
    (markTransitionProgress p idx u content).1.name = p.name ∧
    (markTransitionProgress p idx u content).1.history = p.history ∧
    (markTransitionProgress p idx u content).1.next_level = p.next_level ∧
    (markTransitionProgress p idx u content).1.transitions.length =
      p.transitions.length ∧
    ∀ k,
      ((markTransitionProgress p idx u content).1.transitions.getD k default).from_level =
        (p.transitions.getD k default).from_level ∧
      ((markTransitionProgress p idx u content).1.transitions.getD k default).to_level =
        (p.transitions.getD k default).to_level ∧
      ((markTransitionProgress p idx u content).1.transitions.getD k default).completed =
        (p.transitions.getD k default).completed := by
  refine ⟨rfl, rfl, rfl, rfl, rfl, ?_, ?_⟩
  · rw [markTransitionProgress_transitions]
    exact length_set _ _ _
  · intro k
    rw [markTransitionProgress_transitions, getD_set_cases]
    split_ifs with h
    · obtain ⟨hik, -⟩ := h
      subst hik
      exact ⟨rfl, rfl, rfl⟩
    · exact ⟨rfl, rfl, rfl⟩

theorem markTransitionProgress_noop (p : Progression) (idx : Nat)
    (u : CharUpdate) (content : String)
    (her : explicitResources u = [])
    (hres : ∀ r ∈ (p.transitions.getD idx default).required_resources,
      pyStrip r.name ≠ "" → isRequirementDone r.status = false →
      requirementHit (explicitResources u) (combinedText u content) r = false)
    (hcond : ∀ r ∈ (p.transitions.getD idx default).required_conditions,
      pyStrip r.name ≠ "" → isRequirementDone r.status = false →
      requirementHit (explicitConditions u) (combinedText u content) r = false) :
    markTransitionProgress p idx u content = (p, []) := by
  unfold markTransitionProgress
  dsimp only
  rw [markRequirementList_nohit _ _ _ _ _ hres,
    markRequirementList_nohit _ _ _ _ _ hcond, her]
  dsimp only
  rw [show ({ p.transitions.getD idx default with
      required_resources := (p.transitions.getD idx default).required_resources,
      required_conditions := (p.transitions.getD idx default).required_conditions } :
      Transition) = p.transitions.getD idx default from rfl]
  rw [set_getD_self]
  rfl

/-- C3: a gated character whose active transition still has unsatisfied
requirements, receiving a granular level request that targets the
transition's `to_level` but carries no progress evidence, is blocked: the
gate's reason enumerates up to 4 missing items, the level and the whole
progression document are unchanged, and a visible blocked entry lands in
`current_status`. -/
theorem blocked_breakthrough_audit
    (p : Progression) (idx n : Nat) (content : String)
    (c : CharState) (u : CharUpdate)
    (hidx : p.active_transition_index = some idx)
    (hlen : idx < p.transitions.length)
    (hname : pyStrip p.name = "" ∨ pyStrip p.name = c.name)
    (hlu : u.level_update ≠ "")
    (hgran : isGranularLevel (pyStrip u.level_update) = true)
    (her : explicitResources u = [])
    (hsc : u.status_change = "") (hse : u.status_entries = [])
    (hres : ∀ r ∈ (p.transitions.getD idx default).required_resources,
      pyStrip r.name ≠ "" → isRequirementDone r.status = false →
      requirementHit (explicitResources u) (combinedText u content) r = false)
    (hcond : ∀ r ∈ (p.transitions.getD idx default).required_conditions,
      pyStrip r.name ≠ "" → isRequirementDone r.status = false →
      requirementHit (explicitConditions u) (combinedText u content) r = false)
    (hmiss : collectMissingRequirements (p.transitions.getD idx default) ≠ [])
    (hne_cur : normalizeLevelKey (pyStrip u.level_update) ≠
      normalizeLevelKey (pyStrip (if p.current_level = "" then c.level else p.current_level)))
    (hexp : normalizeLevelKey (pyStrip u.level_update) =
      normalizeLevelKey (pyStrip (p.transitions.getD idx default).to_level)) :
    (applyUpdateToChar (some p) n content c u).1.level = c.level ∧
    (applyUpdateToChar (some p) n content c u).1.current_status =
      takeLast 10 (c.current_status ++
        ["境界更新被拦截: " ++ ("主角突破条件未满足：" ++ String.intercalate "；"
          ((collectMissingRequirements (p.transitions.getD idx default)).take 4))]) ∧
    (applyUpdateToChar (some p) n content c u).2 = some p ∧
    ((collectMissingRequirements (p.transitions.getD idx default)).take 4).length ≤ 4 := by
  have hgate : handleProtagonistLevelUpdate (some p) c.name c.level u content
      (pyStrip u.level_update) =
      ⟨false, "主角突破条件未满足：" ++ String.intercalate "；"
        ((collectMissingRequirements (p.transitions.getD idx default)).take 4),
        [], some p⟩ := by
    unfold handleProtagonistLevelUpdate
    dsimp only
    rw [if_neg (by
      rintro ⟨h1, h2⟩
      rcases hname with h | h
      · exact h1 h
      · exact h2 h.symm)]
    rw [getActiveTransition_of_valid p idx hidx hlen]
    dsimp only
    rw [markTransitionProgress_noop p idx u content her hres hcond]
    dsimp only
    rw [if_neg hne_cur]
    rw [if_neg (by rintro ⟨-, h2⟩; exact h2 hexp)]
    rw [if_pos hmiss]
  have hname2 : (mergeScalars (mergeStatusEntries c u) u).name = c.name := by
    rw [(mergeScalars_frame _ _).2.2, (mergeStatusEntries_level c u).2]
  have hlevel2 : (mergeScalars (mergeStatusEntries c u) u).level = c.level := by
    rw [(mergeScalars_frame _ _).2.1, (mergeStatusEntries_level c u).1]
  have hstatus2 : (mergeScalars (mergeStatusEntries c u) u).current_status =
      c.current_status := by
    rw [(mergeScalars_frame _ _).1]
    unfold mergeStatusEntries
    dsimp only
    rw [if_neg (by
      unfold statusEntriesOf
      rw [hsc, hse]
      simp)]
  have hreason_ne : ("主角突破条件未满足：" ++ String.intercalate "；"
      ((collectMissingRequirements (p.transitions.getD idx default)).take 4)) ≠ "" := by
    intro hcon
    have hlen10 := congrArg String.length hcon
    rw [String.length_append] at hlen10
    have hA : ("主角突破条件未满足：" : String).length = 10 := rfl
    have hB : ("" : String).length = 0 := rfl
    omega
  have hprogstage : progressOnlyMark (some p) (mergeScalars (mergeStatusEntries c u) u)
      u content = some p := by
    unfold progressOnlyMark
    rw [if_neg (by rintro ⟨-, h⟩; exact hlu h)]
  have hls : levelStage (some p) (mergeScalars (mergeStatusEntries c u) u) u content =
      (appendStatus ("境界更新被拦截: " ++ ("主角突破条件未满足：" ++
          String.intercalate "；"
          ((collectMissingRequirements (p.transitions.getD idx default)).take 4)))
        (mergeScalars (mergeStatusEntries c u) u), some p) := by
    unfold levelStage
    rw [if_pos hlu]
    dsimp only
    rw [if_pos hgran, hname2, hlevel2, hgate]
    dsimp only
    rw [if_neg (by exact Bool.false_ne_true), if_pos hreason_ne]
  have happ : (applyUpdateToChar (some p) n content c u) =
      (mergeCollections n
        (levelStage (progressOnlyMark (some p) (mergeScalars (mergeStatusEntries c u) u) u content)
          (mergeScalars (mergeStatusEntries c u) u) u content).1 u,
       (levelStage (progressOnlyMark (some p) (mergeScalars (mergeStatusEntries c u) u) u content)
          (mergeScalars (mergeStatusEntries c u) u) u content).2) := rfl
  rw [happ, hprogstage, hls]
  dsimp only
  obtain ⟨hcf1, hcf2, -⟩ := mergeCollections_frame n
    (appendStatus ("境界更新被拦截: " ++ ("主角突破条件未满足：" ++
        String.intercalate "；"
        ((collectMissingRequirements (p.transitions.getD idx default)).take 4)))
      (mergeScalars (mergeStatusEntries c u) u)) u
  refine ⟨?_, ?_, rfl, ?_⟩
  · rw [hcf2]
    show (mergeScalars (mergeStatusEntries c u) u).level = c.level
    exact hlevel2
  · rw [hcf1]
    show takeLast 10 ((mergeScalars (mergeStatusEntries c u) u).current_status ++ _) = _
    rw [hstatus2]
  · have := List.length_take 4 (collectMissingRequirements (p.transitions.getD idx default))
    omega

/-- C3 witness: 林霄 at 鬼道·阴身境·后期 proposing 鬼道·阴身境·圆满 with no
progress signals is blocked, keeps the level, and gets the audit entry
listing both missing resources and the missing condition. -/
theorem blocked_breakthrough_audit_witness :
    (applyUpdateToChar (some fixProg) 3 "" c1Char c3Update).1.level =
      "鬼道·阴身境·后期" ∧
    (applyUpdateToChar (some fixProg) 3 "" c1Char c3Update).1.current_status =
      ["境界更新被拦截: 主角突破条件未满足：资源:鬼晶；资源:阴木；条件:斩杀心魔"] ∧
    (applyUpdateToChar (some fixProg) 3 "" c1Char c3Update).2 = some fixProg := by
  have h := blocked_breakthrough_audit fixProg 0 3 "" c1Char c3Update
    (by decide) (by decide) (Or.inr (by decide)) (by decide) (by decide)
    (by decide) (by decide) (by decide) (by decide) (by decide) (by decide)
    (by decide) (by decide)
  exact ⟨by rw [h.1]; rfl, by rw [h.2.1]; decide, h.2.2.1⟩

theorem findTransitionIndex_exists (ts : List Transition) (t : Transition)
    (idx : Nat) (hlen : idx < ts.length)
    (hmatch : (ts.getD idx default).from_level = t.from_level ∧
      (ts.getD idx default).to_level = t.to_level) :
    ∃ i0, findTransitionIndex ts t = some i0 ∧ i0 ≤ idx := by
  induction ts generalizing idx with
  | nil => simp at hlen
  | cons x rest ih =>
    unfold findTransitionIndex
    by_cases hx : x.from_level = t.from_level ∧ x.to_level = t.to_level
    · exact ⟨0, by rw [if_pos hx], Nat.zero_le _⟩
    · rw [if_neg hx]
      cases idx with
      | zero => exact absurd hmatch hx
      | succ idx =>
        obtain ⟨i0, hf, hle⟩ := ih idx (by simpa using hlen) hmatch
        exact ⟨i0 + 1, by rw [hf]; rfl, by omega⟩

theorem findIncompleteFrom_some (ts : List Transition) (s j : Nat)
    (h : findIncompleteFrom ts s = some j) :
    s ≤ j ∧ j < ts.length ∧ (ts.getD j default).completed = false ∧
    ∀ k, s ≤ k → k < j → (ts.getD k default).completed = true := by
  induction ts generalizing s j with
  | nil => cases h
  | cons x rest ih =>
    cases s with
    | zero =>
      unfold findIncompleteFrom at h
      dsimp only at h
      by_cases hx : x.completed = true
      · rw [if_neg (by simp [hx])] at h
        rcases hmap : findIncompleteFrom rest 0 with _ | j'
        · rw [hmap] at h; cases h
        · rw [hmap] at h
          have hj : j = j' + 1 := by simpa using h.symm
          subst hj
          obtain ⟨-, h2, h3, h4⟩ := ih 0 j' hmap
          refine ⟨Nat.zero_le _, by simpa using Nat.succ_lt_succ h2, h3, ?_⟩
          intro k _ hk
          cases k with
          | zero => exact hx
          | succ k => exact h4 k (Nat.zero_le _) (by omega)
      · rw [if_pos (by simp [hx])] at h
        cases h
        exact ⟨Nat.le_refl _, Nat.succ_pos _,
          by simpa using hx, fun k _ hk => absurd hk (by omega)⟩
    | succ s =>
      unfold findIncompleteFrom at h
      dsimp only at h
      rcases hmap : findIncompleteFrom rest s with _ | j'
      · rw [hmap] at h; cases h
      · rw [hmap] at h
        have hj : j = j' + 1 := by simpa using h.symm
        subst hj
        obtain ⟨h1, h2, h3, h4⟩ := ih s j' hmap
        refine ⟨by omega, by simpa using Nat.succ_lt_succ h2, h3, ?_⟩
        intro k hk1 hk2
        cases k with
        | zero => omega
        | succ k => exact h4 k (by omega) (by omega)

theorem findIncompleteFrom_none (ts : List Transition) (s : Nat)
    (h : findIncompleteFrom ts s = none) :
    ∀ k, s ≤ k → k < ts.length → (ts.getD k default).completed = true := by
  induction ts generalizing s with
  | nil => intro k _ hk; simp at hk
  | cons x rest ih =>
    cases s with
    | zero =>
      unfold findIncompleteFrom at h
      dsimp only at h
      by_cases hx : x.completed = true
      · rw [if_neg (by simp [hx])] at h
        rcases hmap : findIncompleteFrom rest 0 with _ | j'
        · intro k _ hk
          cases k with
          | zero => exact hx
          | succ k => exact ih 0 hmap k (Nat.zero_le _) (by simpa using hk)
        · rw [hmap] at h; cases h
      · rw [if_pos (by simp [hx])] at h; cases h
    | succ s =>
      unfold findIncompleteFrom at h
      dsimp only at h
      rcases hmap : findIncompleteFrom rest s with _ | j'
      · intro k hk1 hk2
        cases k with
        | zero => omega
        | succ k => exact ih s hmap k (by omega) (by simpa using hk2)
      · rw [hmap] at h; cases h

theorem findIncompleteFrom_none_of_all (ts : List Transition)
    (h : ∀ k, k < ts.length → (ts.getD k default).completed = true) :
    findIncompleteFrom ts 0 = none := by
  rcases hf : findIncompleteFrom ts 0 with _ | j
  · rfl
  · obtain ⟨-, h2, h3, -⟩ := findIncompleteFrom_some ts 0 j hf
    rw [h j h2] at h3
    cases h3

theorem map_set_list (l : List α) (i : Nat) (a : α) (f : α → β) :
    (l.set i a).map f = (l.map f).set i (f a) := by
  induction l generalizing i with
  | nil => rfl
  | cons x rest ih =>
    cases i with
    | zero => rfl
    | succ i =>
      show f x :: (rest.set i a).map f = f x :: (rest.map f).set i (f a)
      rw [ih i]

theorem getD_map (l : List α) (i : Nat) (d : α) (f : α → β) :
    (l.map f).getD i (f d) = f (l.getD i d) := by
  induction l generalizing i with
  | nil => rfl
  | cons x rest ih =>
    cases i with
    | zero => rfl
    | succ i => exact ih i

theorem markTransitionProgress_completedMap (p : Progression) (idx : Nat)
    (u : CharUpdate) (content : String) :
    (markTransitionProgress p idx u content).1.transitions.map Transition.completed =
      p.transitions.map Transition.completed := by
  rw [markTransitionProgress_transitions, map_set_list]
  rw [show Transition.completed
      (markedTransition (p.transitions.getD idx default) u content) =
    Transition.completed (p.transitions.getD idx default) from rfl]
  rw [← getD_map p.transitions idx default Transition.completed, set_getD_self]

theorem advanceAfter_spec (base : Progression) (ts : List Transition)
    (t : Transition) (idx : Nat) (hlen : idx < ts.length)
    (hmatch : (ts.getD idx default).from_level = t.from_level ∧
      (ts.getD idx default).to_level = t.to_level)
    (hall : ∀ k, k ≤ idx → (ts.getD k default).completed = true) :
    (advanceAfter base ts t).name = base.name ∧
    (advanceAfter base ts t).current_level = base.current_level ∧
    (advanceAfter base ts t).history = base.history ∧
    (advanceAfter base ts t).transitions = base.transitions ∧
    (∀ j, (advanceAfter base ts t).active_transition_index = some j →
      idx < j ∧ j < ts.length ∧ (ts.getD j default).completed = false ∧
      (advanceAfter base ts t).next_level = (ts.getD j default).to_level ∧
      ∀ k, idx < k → k < j → (ts.getD k default).completed = true) ∧
    ((advanceAfter base ts t).active_transition_index = none →
      (∀ k, idx < k → k < ts.length → (ts.getD k default).completed = true) ∧
      (advanceAfter base ts t).next_level = "") := by
  obtain ⟨i0, hfi, hi0⟩ := findTransitionIndex_exists ts t idx hlen hmatch
  unfold advanceAfter
  rw [hfi]
  dsimp only
  rcases hscan : findIncompleteFrom ts (i0 + 1) with _ | j
  all_goals dsimp only
  · refine ⟨rfl, rfl, rfl, rfl, ?_, ?_⟩
    · intro j hj
      cases hj
    · intro _
      refine ⟨?_, rfl⟩
      intro k hk1 hk2
      exact findIncompleteFrom_none _ _ hscan k (by omega) hk2
  · obtain ⟨hj1, hj2, hj3, hj4⟩ := findIncompleteFrom_some _ _ _ hscan
    have hjidx : idx < j := by
      by_contra hcon
      push_neg at hcon
      rw [hall j hcon] at hj3
      cases hj3
    refine ⟨rfl, rfl, rfl, rfl, ?_, ?_⟩
    · intro j' hj'
      cases hj'
      exact ⟨hjidx, hj2, hj3, rfl, fun k hk1 hk2 => hj4 k (by omega) hk2⟩
    · intro hnone
      cases hnone

theorem completeTransition_spec (p : Progression) (idx : Nat) (lu : String)
    (hlen : idx < p.transitions.length)
    (hpre : ∀ k, k < idx → (p.transitions.getD k default).completed = true) :
    (completeTransition p idx lu).name = p.name ∧
    (completeTransition p idx lu).current_level = lu ∧
    (completeTransition p idx lu).history =
      takeLast 20 (p.history ++
        ["突破成功: " ++ (p.transitions.getD idx default).from_level ++ " -> " ++
          (p.transitions.getD idx default).to_level]) ∧
    (completeTransition p idx lu).transitions =
      p.transitions.set idx { p.transitions.getD idx default with completed := true } ∧
    (∀ j, (completeTransition p idx lu).active_transition_index = some j →
      idx < j ∧
      j < (p.transitions.set idx
        { p.transitions.getD idx default with completed := true }).length ∧
      ((p.transitions.set idx
        { p.transitions.getD idx default with completed := true }).getD j default).completed
        = false ∧
      (completeTransition p idx lu).next_level =
        ((p.transitions.set idx
          { p.transitions.getD idx default with completed := true }).getD j default).to_level ∧
      ∀ k, idx < k → k < j →
        ((p.transitions.set idx
          { p.transitions.getD idx default with completed := true }).getD k default).completed
          = true) ∧
    ((completeTransition p idx lu).active_transition_index = none →
      (∀ k, idx < k →
        k < (p.transitions.set idx
          { p.transitions.getD idx default with completed := true }).length →
        ((p.transitions.set idx
          { p.transitions.getD idx default with completed := true }).getD k default).completed
          = true) ∧
      (completeTransition p idx lu).next_level = "") := by
  have hlen' : idx < (p.transitions.set idx
      { p.transitions.getD idx default with completed := true }).length := by
    rw [length_set]; exact hlen
  have hgetidx : ((p.transitions.set idx
      { p.transitions.getD idx default with completed := true }).getD idx default) =
      { p.transitions.getD idx default with completed := true } :=
    getD_set_self _ _ _ _ hlen
  have hall : ∀ k, k ≤ idx →
      ((p.transitions.set idx
        { p.transitions.getD idx default with completed := true }).getD k default).completed
        = true := by
    intro k hk
    rw [getD_set_cases]
    split_ifs with hc
    · rfl
    · have hne : idx ≠ k := fun hh => hc ⟨hh, hlen⟩
      exact hpre k (by omega)
  have hadv := advanceAfter_spec
    { p with
      transitions :=
        p.transitions.set idx { p.transitions.getD idx default with completed := true },
      current_level := lu,
      history :=
        takeLast 20 (p.history ++
          ["突破成功: " ++ (p.transitions.getD idx default).from_level ++ " -> " ++
            (p.transitions.getD idx default).to_level]) }
    (p.transitions.set idx { p.transitions.getD idx default with completed := true })
    (p.transitions.getD idx default) idx hlen'
    (by rw [hgetidx]; exact ⟨rfl, rfl⟩) hall
  exact hadv

theorem handleLevelUpdate_success
    (p : Progression) (idx : Nat) (charName charLevel : String)
    (u : CharUpdate) (content lu : String)
    (hidx : p.active_transition_index = some idx)
    (hlen : idx < p.transitions.length)
    (hnamecond : ¬(pyStrip p.name ≠ "" ∧ charName ≠ pyStrip p.name))
    (hmarked : collectMissingRequirements
      (markedTransition (p.transitions.getD idx default) u content) = [])
    (hne_cur : normalizeLevelKey lu ≠ normalizeLevelKey
      (pyStrip (if p.current_level = "" then charLevel else p.current_level)))
    (hexp : normalizeLevelKey lu =
      normalizeLevelKey (pyStrip (p.transitions.getD idx default).to_level)) :
    handleProtagonistLevelUpdate (some p) charName charLevel u content lu =
      ⟨true, "",
        (markTransitionProgress p idx u content).2 ++
          ["主角突破成功: " ++ (p.transitions.getD idx default).from_level ++ " -> " ++
            (p.transitions.getD idx default).to_level],
        some (completeTransition (markTransitionProgress p idx u content).1 idx lu)⟩ := by
  have hT : (markTransitionProgress p idx u content).1.transitions.getD idx default =
      markedTransition (p.transitions.getD idx default) u content := by
    rw [markTransitionProgress_transitions, getD_set_self _ _ _ _ hlen]
  unfold handleProtagonistLevelUpdate
  dsimp only
  rw [if_neg hnamecond, getActiveTransition_of_valid p idx hidx hlen]
  dsimp only
  rw [hT, (markTransitionProgress_frame p idx u content).1]
  rw [if_neg hne_cur]
  rw [if_neg (by rintro ⟨-, h2⟩; exact h2 hexp)]
  rw [if_neg (fun h => h hmarked)]
  rfl

/-- C2 counterexample: `c2Update` satisfies every hypothesis of the claim —
its `breakthrough_progress` names both required resources and the required
condition, and its requested level normalizes equal to the transition's
`to_level` — yet `current_level` is set to the requested string
`鬼道·阴身境·圆满（巅峰）`, not to the transition's `to_level`
`鬼道·阴身境·圆满`. -/
theorem satisfied_breakthrough_cex :
    (handleProtagonistLevelUpdate (some fixProg) "林霄" "鬼道·阴身境·后期"
      c2Update "" "鬼道·阴身境·圆满（巅峰）").allowed = true ∧
    ((handleProtagonistLevelUpdate (some fixProg) "林霄" "鬼道·阴身境·后期"
      c2Update "" "鬼道·阴身境·圆满（巅峰）").progression.map
        Progression.current_level) = some "鬼道·阴身境·圆满（巅峰）" ∧
    fixTrans1.to_level = "鬼道·阴身境·圆满" ∧
    normalizeLevelKey "鬼道·阴身境·圆满（巅峰）" =
      normalizeLevelKey fixTrans1.to_level ∧
    "鬼道·阴身境·圆满（巅峰）" ≠ fixTrans1.to_level := by
  refine ⟨?_, ?_, ?_, ?_, ?_⟩ <;> decide

/-- C2 (amended): when the update's evidence satisfies every requirement of
the active transition and the requested level normalizes equal to the
transition's `to_level` (and differs from the current level), the gate
allows the update, the character's `level` and `progression.current_level`
are set to the update's trimmed `level_update` string (equal to `to_level`
exactly when the update names it verbatim), the transition is marked
completed, a completion line is appended to the capped history, and
`active_transition_index` advances to the next incomplete transition or
becomes null. -/
theorem satisfied_breakthrough
    (p : Progression) (idx n : Nat) (content : String) (c : CharState)
    (u : CharUpdate)
    (hidx : p.active_transition_index = some idx)
    (hlen : idx < p.transitions.length)
    (hname : pyStrip p.name = "" ∨ pyStrip p.name = c.name)
    (hlu : u.level_update ≠ "")
    (hgran : isGranularLevel (pyStrip u.level_update) = true)
    (hpre : ∀ k, k < idx → (p.transitions.getD k default).completed = true)
    (hmarked : collectMissingRequirements
      (markedTransition (p.transitions.getD idx default) u content) = [])
    (hne_cur : normalizeLevelKey (pyStrip u.level_update) ≠ normalizeLevelKey
      (pyStrip (if p.current_level = "" then c.level else p.current_level)))
    (hexp : normalizeLevelKey (pyStrip u.level_update) =
      normalizeLevelKey (pyStrip (p.transitions.getD idx default).to_level)) :
    (applyUpdateToChar (some p) n content c u).1.level = pyStrip u.level_update ∧
    (applyUpdateToChar (some p) n content c u).2 =
      some (completeTransition (markTransitionProgress p idx u content).1 idx
        (pyStrip u.level_update)) ∧
    (completeTransition (markTransitionProgress p idx u content).1 idx
      (pyStrip u.level_update)).current_level = pyStrip u.level_update ∧
    (completeTransition (markTransitionProgress p idx u content).1 idx
      (pyStrip u.level_update)).history =
      takeLast 20 (p.history ++
        ["突破成功: " ++ (p.transitions.getD idx default).from_level ++ " -> " ++
          (p.transitions.getD idx default).to_level]) ∧
    ((completeTransition (markTransitionProgress p idx u content).1 idx
      (pyStrip u.level_update)).transitions.getD idx default).completed = true ∧
    (∀ j, (completeTransition (markTransitionProgress p idx u content).1 idx
        (pyStrip u.level_update)).active_transition_index = some j →
      idx < j ∧
      ((completeTransition (markTransitionProgress p idx u content).1 idx
        (pyStrip u.level_update)).transitions.getD j default).completed = false ∧
      ∀ k, idx < k → k < j →
        ((completeTransition (markTransitionProgress p idx u content).1 idx
          (pyStrip u.level_update)).transitions.getD k default).completed = true) ∧
    ((completeTransition (markTransitionProgress p idx u content).1 idx
        (pyStrip u.level_update)).active_transition_index = none →
      ∀ k, idx < k →
        k < (completeTransition (markTransitionProgress p idx u content).1 idx
          (pyStrip u.level_update)).transitions.length →
        ((completeTransition (markTransitionProgress p idx u content).1 idx
          (pyStrip u.level_update)).transitions.getD k default).completed = true) := by
  set p2 := (markTransitionProgress p idx u content).1 with hp2
  have hframe := markTransitionProgress_frame p idx u content
  have hlen2 : idx < p2.transitions.length := by
    rw [hp2, hframe.2.2.2.2.2.1]; exact hlen
  have hpre2 : ∀ k, k < idx → (p2.transitions.getD k default).completed = true := by
    intro k hk
    rw [hp2, ((hframe.2.2.2.2.2.2) k).2.2]
    exact hpre k hk
  have hT : p2.transitions.getD idx default =
      markedTransition (p.transitions.getD idx default) u content := by
    rw [hp2, markTransitionProgress_transitions, getD_set_self _ _ _ _ hlen]
  have hspec := completeTransition_spec p2 idx (pyStrip u.level_update) hlen2 hpre2
  have hsetT : p2.transitions.set idx
      { p2.transitions.getD idx default with completed := true } =
      (completeTransition p2 idx (pyStrip u.level_update)).transitions :=
    hspec.2.2.2.1.symm
  have hname2 : (mergeScalars (mergeStatusEntries c u) u).name = c.name := by
    rw [(mergeScalars_frame _ _).2.2, (mergeStatusEntries_level c u).2]
  have hlevel2 : (mergeScalars (mergeStatusEntries c u) u).level = c.level := by
    rw [(mergeScalars_frame _ _).2.1, (mergeStatusEntries_level c u).1]
  have hgate := handleLevelUpdate_success p idx
    (mergeScalars (mergeStatusEntries c u) u).name
    (mergeScalars (mergeStatusEntries c u) u).level u content
    (pyStrip u.level_update) hidx hlen
    (by rw [hname2]
        rintro ⟨h1, h2⟩
        rcases hname with h | h
        · exact h1 h
        · exact h2 h.symm)
    hmarked (by rw [hlevel2]; exact hne_cur) hexp
  have hprogstage : progressOnlyMark (some p) (mergeScalars (mergeStatusEntries c u) u)
      u content = some p := by
    unfold progressOnlyMark
    rw [if_neg (by rintro ⟨-, h⟩; exact hlu h)]
  have hls : levelStage (some p) (mergeScalars (mergeStatusEntries c u) u) u content =
      ({ mergeScalars (mergeStatusEntries c u) u with level := pyStrip u.level_update },
        some (completeTransition p2 idx (pyStrip u.level_update))) := by
    unfold levelStage
    rw [if_pos hlu]
    dsimp only
    rw [if_pos hgran, hgate]
    dsimp only
    rw [if_pos rfl]
  have happ : (applyUpdateToChar (some p) n content c u) =
      (mergeCollections n
        (levelStage (progressOnlyMark (some p) (mergeScalars (mergeStatusEntries c u) u) u content)
          (mergeScalars (mergeStatusEntries c u) u) u content).1 u,
       (levelStage (progressOnlyMark (some p) (mergeScalars (mergeStatusEntries c u) u) u content)
          (mergeScalars (mergeStatusEntries c u) u) u content).2) := rfl
  refine ⟨?_, ?_, hspec.2.1, ?_, ?_, ?_, ?_⟩
  · rw [happ]
    dsimp only
    rw [hprogstage, hls]
    dsimp only
    rw [(mergeCollections_frame n _ u).2.1]
  · rw [happ]
    dsimp only
    rw [hprogstage, hls]
  · rw [hspec.2.2.1, hp2, hframe.2.2.2.1]
    have hfl : (p2.transitions.getD idx default).from_level =
        (p.transitions.getD idx default).from_level := ((hframe.2.2.2.2.2.2) idx).1
    have htl : (p2.transitions.getD idx default).to_level =
        (p.transitions.getD idx default).to_level := ((hframe.2.2.2.2.2.2) idx).2.1
    rw [← hp2, hfl, htl]
  · rw [← hsetT, getD_set_self _ _ _ _ hlen2]
  · intro j hj
    obtain ⟨hj1, -, hj3, -, hj5⟩ := hspec.2.2.2.2.1 j hj
    refine ⟨hj1, ?_, ?_⟩
    · rw [← hsetT]; exact hj3
    · intro k hk1 hk2
      rw [← hsetT]
      exact hj5 k hk1 hk2
  · intro hnone k hk1 hk2
    obtain ⟨hclose, -⟩ := hspec.2.2.2.2.2 hnone
    rw [← hsetT]
    refine hclose k hk1 ?_
    rw [← hsetT] at hk2
    exact hk2

/-- C2 witness: 林霄's satisfied breakthrough completes the first planned
transition, records the requested level, logs the completion line, and
advances the pointer to transition 1. -/
theorem satisfied_breakthrough_witness :
    (applyUpdateToChar (some fixProg) 4 "" c1Char c2Update).1.level =
      "鬼道·阴身境·圆满（巅峰）" ∧
    ((applyUpdateToChar (some fixProg) 4 "" c1Char c2Update).2.map
      Progression.current_level) = some "鬼道·阴身境·圆满（巅峰）" ∧
    ((applyUpdateToChar (some fixProg) 4 "" c1Char c2Update).2.map
      Progression.active_transition_index) = some (some 1) ∧
    ((applyUpdateToChar (some fixProg) 4 "" c1Char c2Update).2.map
      Progression.history) =
      some ["突破成功: 鬼道·阴身境·后期 -> 鬼道·阴身境·圆满"] := by
  have h := satisfied_breakthrough fixProg 0 4 "" c1Char c2Update
    (by decide) (by decide) (Or.inr (by decide)) (by decide) (by decide)
    (fun k hk => absurd hk (Nat.not_lt_zero k))
    (by decide) (by decide) (by decide)
  refine ⟨by rw [h.1]; decide, ?_, ?_, ?_⟩ <;> rw [h.2.1] <;> decide

theorem getActiveTransition_none (p : Progression)
    (hidx : p.active_transition_index = none)
    (hfind : findIncompleteFrom p.transitions 0 = none) :
    getActiveTransition p = none := by
  unfold getActiveTransition
  rw [hidx]
  split_ifs
  · rfl
  · unfold getActiveTransition.getActiveTransitionScan
    rw [hfind]

/-- C1: (A) while the active transition still has an unsatisfied requirement
after progress marking, every gate call leaves `current_level` unchanged;
(B) once all requirements are satisfied, a request matching the normalized
target succeeds: the transition completes and the pointer strictly
advances; (C) an identical repeated request is then a pure no-op
confirmation — allowed, with the level, the completed flags and the
pointer untouched. -/
theorem gate_monotonicity
    (p : Progression) (idx : Nat) (charName charLevel : String)
    (u u2 : CharUpdate) (content content2 lu : String)
    (hidx : p.active_transition_index = some idx)
    (hlen : idx < p.transitions.length)
    (hnamecond : ¬(pyStrip p.name ≠ "" ∧ charName ≠ pyStrip p.name)) :
    (collectMissingRequirements
        (markedTransition (p.transitions.getD idx default) u content) ≠ [] →
      ((handleProtagonistLevelUpdate (some p) charName charLevel u content lu).progression.map
        Progression.current_level) = some p.current_level) ∧
    (∀ (_ : ∀ k, k < idx → (p.transitions.getD k default).completed = true)
       (_ : collectMissingRequirements
         (markedTransition (p.transitions.getD idx default) u content) = [])
       (_ : normalizeLevelKey lu ≠ normalizeLevelKey
         (pyStrip (if p.current_level = "" then charLevel else p.current_level)))
       (_ : normalizeLevelKey lu =
         normalizeLevelKey (pyStrip (p.transitions.getD idx default).to_level))
       (_ : pyStrip lu = lu) (_ : lu ≠ ""),
      (handleProtagonistLevelUpdate (some p) charName charLevel u content lu).allowed
        = true ∧
      (handleProtagonistLevelUpdate (some p) charName charLevel u content lu).progression
        = some (completeTransition (markTransitionProgress p idx u content).1 idx lu) ∧
      (completeTransition (markTransitionProgress p idx u content).1 idx lu).current_level
        = lu ∧
      (∀ j, (completeTransition (markTransitionProgress p idx u content).1 idx
        lu).active_transition_index = some j → idx < j) ∧
      (handleProtagonistLevelUpdate
        (some (completeTransition (markTransitionProgress p idx u content).1 idx lu))
        charName lu u2 content2 lu).allowed = true ∧
      ((handleProtagonistLevelUpdate
        (some (completeTransition (markTransitionProgress p idx u content).1 idx lu))
        charName lu u2 content2 lu).progression.map Progression.current_level)
        = some lu ∧
      ((handleProtagonistLevelUpdate
        (some (completeTransition (markTransitionProgress p idx u content).1 idx lu))
        charName lu u2 content2 lu).progression.map
          (fun q => q.transitions.map Transition.completed))
        = some ((completeTransition (markTransitionProgress p idx u content).1 idx
            lu).transitions.map Transition.completed) ∧
      ((handleProtagonistLevelUpdate
        (some (completeTransition (markTransitionProgress p idx u content).1 idx lu))
        charName lu u2 content2 lu).progression.map Progression.active_transition_index)
        = some (completeTransition (markTransitionProgress p idx u content).1 idx
            lu).active_transition_index) := by
  have hT : (markTransitionProgress p idx u content).1.transitions.getD idx default =
      markedTransition (p.transitions.getD idx default) u content := by
    rw [markTransitionProgress_transitions, getD_set_self _ _ _ _ hlen]
  constructor
  · intro hmiss
    unfold handleProtagonistLevelUpdate
    dsimp only
    rw [if_neg hnamecond, getActiveTransition_of_valid p idx hidx hlen]
    dsimp only
    rw [hT]
    split_ifs <;>
      (dsimp only [Option.map]
       exact congrArg some (markTransitionProgress_frame p idx u content).1)
  · intro hpre hmarked hne_cur hexp hlu_trim hlu_ne
    have hgate := handleLevelUpdate_success p idx charName charLevel u content lu
      hidx hlen hnamecond hmarked hne_cur hexp
    set p2 := (markTransitionProgress p idx u content).1 with hp2
    have hframe := markTransitionProgress_frame p idx u content
    have hlen2 : idx < p2.transitions.length := by
      rw [hp2, hframe.2.2.2.2.2.1]; exact hlen
    have hpre2 : ∀ k, k < idx → (p2.transitions.getD k default).completed = true := by
      intro k hk
      rw [hp2, ((hframe.2.2.2.2.2.2) k).2.2]
      exact hpre k hk
    have hspec := completeTransition_spec p2 idx lu hlen2 hpre2
    set p3 := completeTransition p2 idx lu with hp3
    have hp3name : p3.name = p.name := by
      rw [hp3, hspec.1, hp2, hframe.2.2.1]
    have hp3cur : p3.current_level = lu := hspec.2.1
    have hp3trans : p3.transitions =
        p2.transitions.set idx { p2.transitions.getD idx default with completed := true } :=
      hspec.2.2.2.1
    have hadvance : ∀ j, p3.active_transition_index = some j → idx < j :=
      fun j hj => (hspec.2.2.2.2.1 j hj).1
    have hnamecond3 : ¬(pyStrip p3.name ≠ "" ∧ charName ≠ pyStrip p3.name) := by
      rw [hp3name]; exact hnamecond
    refine ⟨by rw [hgate], by rw [hgate], hp3cur, hadvance, ?_⟩
    rcases hidx3 : p3.active_transition_index with _ | j
    · -- plan exhausted: the second call syncs the (unchanged) level
      have hallc : ∀ k, k < p3.transitions.length →
          (p3.transitions.getD k default).completed = true := by
        intro k hk
        by_cases hki : k ≤ idx
        · rw [hp3trans, getD_set_cases]
          split_ifs with hc
          · rfl
          · have : idx ≠ k := fun hh => hc ⟨hh, hlen2⟩
            exact hpre2 k (by omega)
        · push_neg at hki
          have hlenk : k < (p2.transitions.set idx
              { p2.transitions.getD idx default with completed := true }).length := by
            rw [← hp3trans]; exact hk
          have := (hspec.2.2.2.2.2 hidx3).1 k hki hlenk
          rw [hp3trans]
          exact this
      have hfind : findIncompleteFrom p3.transitions 0 = none :=
        findIncompleteFrom_none_of_all _ hallc
      have hget : getActiveTransition p3 = none :=
        getActiveTransition_none p3 hidx3 hfind
      have h2nd : handleProtagonistLevelUpdate (some p3) charName lu u2 content2 lu =
          ⟨true, "", ["主角境界同步: " ++ lu],
            some { p3 with current_level := lu }⟩ := by
        unfold handleProtagonistLevelUpdate
        dsimp only
        rw [if_neg hnamecond3, hget]
      rw [h2nd]
      refine ⟨rfl, rfl, ?_, ?_⟩
      · dsimp only [Option.map]
      · dsimp only [Option.map]
        rw [hidx3]
    · -- the pointer sits on the next incomplete transition
      have hjlen : j < p3.transitions.length := by
        have := (hspec.2.2.2.2.1 j hidx3).2.1
        rw [hp3trans]
        exact this
      have hget : getActiveTransition p3 = some (j, p3) :=
        getActiveTransition_of_valid p3 j hidx3 hjlen
      have hframe3 := markTransitionProgress_frame p3 j u2 content2
      have h2nd : handleProtagonistLevelUpdate (some p3) charName lu u2 content2 lu =
          ⟨true, "", (markTransitionProgress p3 j u2 content2).2,
            some (markTransitionProgress p3 j u2 content2).1⟩ := by
        unfold handleProtagonistLevelUpdate
        dsimp only
        rw [if_neg hnamecond3, hget]
        dsimp only
        rw [hframe3.1, hp3cur, if_neg hlu_ne, hlu_trim]
        rw [if_pos rfl]
      rw [h2nd]
      refine ⟨rfl, ?_, ?_, ?_⟩
      · dsimp only [Option.map]
        rw [hframe3.1, hp3cur]
      · dsimp only [Option.map]
        rw [markTransitionProgress_completedMap]
      · dsimp only [Option.map]
        rw [hframe3.2.1, hidx3]

/-- Witness for C1: with no progress evidence (c3Update) the gate leaves the
level alone; with full evidence (c1Update) the breakthrough is allowed and the
repeated confirmation is still allowed. -/
theorem gate_monotonicity_witness :
    ((handleProtagonistLevelUpdate (some fixProg) "林霄" "鬼道·阴身境·后期"
        c3Update "" "鬼道·阴身境·圆满").progression.map
      Progression.current_level) = some fixProg.current_level ∧
    (handleProtagonistLevelUpdate (some fixProg) "林霄" "鬼道·阴身境·后期"
        c1Update "" "鬼道·阴身境·圆满").allowed = true ∧
    (handleProtagonistLevelUpdate
        (some (completeTransition (markTransitionProgress fixProg 0 c1Update "").1
          0 "鬼道·阴身境·圆满"))
        "林霄" "鬼道·阴身境·圆满" emptyCharUpdate "" "鬼道·阴身境·圆满").allowed
      = true := by
  have hA := gate_monotonicity fixProg 0 "林霄" "鬼道·阴身境·后期" c3Update
    emptyCharUpdate "" "" "鬼道·阴身境·圆满" rfl (by decide) (by decide)
  have hB := gate_monotonicity fixProg 0 "林霄" "鬼道·阴身境·后期" c1Update
    emptyCharUpdate "" "" "鬼道·阴身境·圆满" rfl (by decide) (by decide)
  have hB2 := hB.2 (fun k hk => absurd hk (Nat.not_lt_zero k)) (by decide)
    (by decide) (by decide) (by decide) (by decide)
  exact ⟨hA.1 (by decide), hB2.1, hB2.2.2.2.2.1⟩

theorem parseItemLine_head (l : String) (x : Nat × Nat × String)
    (h : parseItemLine l = some x) :
    ∃ cs, l.data.dropWhile Char.isWhitespace = '-' :: cs := by
  unfold parseItemLine at h
  split at h
  · rename_i cs1 heq
    exact ⟨cs1, heq⟩
  · exact absurd h (by simp)

theorem stripLead_hash (ms : List Char) (l : String) (cs : List Char)
    (h : l.data.dropWhile Char.isWhitespace = '-' :: cs) :
    stripLead ('#' :: ms) l.data = none := by
  cases hld : l.data with
  | nil => rw [hld] at h; exact absurd h (by simp [List.dropWhile])
  | cons c l2 =>
    rw [hld] at h
    rw [List.dropWhile_cons] at h
    have hc : ¬('#' = c) := by
      by_cases hw : Char.isWhitespace c
      · rw [if_pos hw] at h
        intro hceq
        rw [← hceq] at hw
        exact absurd hw (by decide)
      · rw [if_neg hw] at h
        injection h with h1 _
        intro hceq
        rw [← hceq] at h1
        exact absurd h1 (by decide)
    rw [stripLead, if_neg hc]

theorem parseItemLine_not_heading (l : String) (x : Nat × Nat × String)
    (h : parseItemLine l = some x) (m : String) (ms : List Char)
    (hm : m.data = '#' :: ms) :
    parseHeadingLine m l = none := by
  obtain ⟨cs, hcs⟩ := parseItemLine_head l x h
  unfold parseHeadingLine
  rw [hm, stripLead_hash ms l cs hcs]

theorem parseItemLine_ne_blank (l : String) (x : Nat × Nat × String)
    (h : parseItemLine l = some x) : l ≠ "" := by
  intro heq
  rw [heq, show parseItemLine "" = none from by decide] at h
  exact Option.noConfusion h

theorem scanOutline_skip (n : Nat) (vol phase raw : String)
    (L : List String) (hraw : itemMatchesFor n raw = false) :
    scanOutline n vol phase (raw :: L) =
      scanOutline n (scanHeads n vol phase raw).1 (scanHeads n vol phase raw).2
        L := by
  rw [scanOutline]
  unfold scanHeads
  dsimp only
  by_cases hbl : pyStrip raw = ""
  · rw [if_pos hbl, hbl]
    rw [show parseHeadingLine "##" "" = none from by decide]
    dsimp only
    rw [show parseHeadingLine "###" "" = none from by decide]
  · rw [if_neg hbl]
    cases h2 : parseHeadingLine "##" (pyStrip raw) with
    | some tab =>
      obtain ⟨t, a2, b2⟩ := tab
      dsimp only
      by_cases hr : a2 ≤ n ∧ n ≤ b2
      · simp only [if_pos hr]
      · simp only [if_neg hr]
    | none =>
      dsimp only
      cases h3 : parseHeadingLine "###" (pyStrip raw) with
      | some tab =>
        obtain ⟨t, a2, b2⟩ := tab
        dsimp only
        by_cases hr : a2 ≤ n ∧ n ≤ b2
        · simp only [if_pos hr]
        · simp only [if_neg hr]
      | none =>
        dsimp only
        cases hi : parseItemLine (pyStrip raw) with
        | none => rfl
        | some abs =>
          obtain ⟨a2, b2, s2⟩ := abs
          dsimp only
          unfold itemMatchesFor at hraw
          rw [hi] at hraw
          dsimp only at hraw
          rw [if_neg (of_decide_eq_false hraw)]

theorem scanOutline_append (n : Nat) (L : List String) (pre : List String) :
    ∀ vol phase, (∀ raw ∈ pre, itemMatchesFor n raw = false) →
    ∃ v2 p2,
      scanOutline n vol phase (pre ++ L) = scanOutline n v2 p2 L ∧
      scanOutline n vol phase pre = ⟨v2, p2, ""⟩ := by
  induction pre with
  | nil =>
    intro vol phase _
    exact ⟨vol, phase, rfl, rfl⟩
  | cons raw pre ih =>
    intro vol phase hpre
    have hskip := scanOutline_skip n vol phase raw (pre ++ L)
      (hpre raw (List.mem_cons_self raw pre))
    obtain ⟨v2, p2, h1, h2⟩ := ih (scanHeads n vol phase raw).1
      (scanHeads n vol phase raw).2
      (fun r hr => hpre r (List.mem_cons_of_mem raw hr))
    refine ⟨v2, p2, ?_, ?_⟩
    · rw [List.cons_append, hskip, h1]
    · rw [scanOutline_skip n vol phase raw pre
        (hpre raw (List.mem_cons_self raw pre)), h2]

theorem scanOutline_nomatch (n : Nat) (raws : List String) :
    ∀ vol phase, (∀ raw ∈ raws, itemMatchesFor n raw = false) →
    (scanOutline n vol phase raws).specific_goal = "" := by
  induction raws with
  | nil => intro vol phase _; rfl
  | cons raw L ih =>
    intro vol phase hall
    rw [scanOutline_skip n vol phase raw L (hall raw (List.mem_cons_self raw L))]
    exact ih _ _ (fun r hr => hall r (List.mem_cons_of_mem raw hr))

theorem scanOutline_first_match (n : Nat) (vol phase : String)
    (l : String) (rest : List String) (a b : Nat) (s : String)
    (hitem : parseItemLine (pyStrip l) = some (a, b, s))
    (hin : a ≤ n ∧ n ≤ b) :
    scanOutline n vol phase (l :: rest) = ⟨vol, phase, itemGoal s rest⟩ := by
  have hbl := parseItemLine_ne_blank _ _ hitem
  have hh2 : parseHeadingLine "##" (pyStrip l) = none :=
    parseItemLine_not_heading _ _ hitem "##" ['#'] (by decide)
  have hh3 : parseHeadingLine "###" (pyStrip l) = none :=
    parseItemLine_not_heading _ _ hitem "###" ['#', '#'] (by decide)
  rw [scanOutline]
  rw [if_neg hbl, hh2]
  dsimp only
  rw [hh3]
  dsimp only
  rw [hitem]
  dsimp only
  rw [if_pos hin]

theorem splitAtLastChar_of_not_mem (c : Char) (l : List Char) (h : c ∉ l) :
    splitAtLastChar c l = none := by
  induction l with
  | nil => rfl
  | cons x rest ih =>
    rw [splitAtLastChar, ih (fun hm => h (List.mem_cons_of_mem x hm))]
    dsimp only
    rw [if_neg (fun hx : x = c => h (by rw [← hx]; exact List.mem_cons_self x rest))]

theorem stripLead_mem (p : List Char) :
    ∀ (l r : List Char), stripLead p l = some r → ∀ c ∈ r, c ∈ l := by
  induction p with
  | nil =>
    intro l r h c hc
    rw [stripLead] at h
    injection h with h1
    rw [h1]
    exact hc
  | cons q ps ih =>
    intro l r h c hc
    cases l with
    | nil => exact absurd h (by simp [stripLead])
    | cons x xs =>
      rw [stripLead] at h
      by_cases hq : q = x
      · rw [if_pos hq] at h
        exact List.mem_cons_of_mem x (ih xs r h c hc)
      · rw [if_neg hq] at h
        exact absurd h (by simp)

theorem parseHeadingLine_norange (marker t ti : String) (a2 b2 : Nat)
    (hmem : '（' ∉ t.data)
    (h : parseHeadingLine marker t = some (ti, a2, b2)) :
    a2 = 0 ∧ b2 = 9999 := by
  unfold parseHeadingLine at h
  cases hs : stripLead marker.data t.data with
  | none => rw [hs] at h; exact absurd h (by simp)
  | some cs =>
    rw [hs] at h
    dsimp only at h
    have hnotin : '（' ∉ (cs.span Char.isWhitespace).2 := by
      rw [List.span_eq_take_drop]
      intro hmm
      exact hmem (stripLead_mem marker.data t.data cs hs '（'
        ((List.dropWhile_sublist Char.isWhitespace).subset hmm))
    rw [splitAtLastChar_of_not_mem '（' _ hnotin] at h
    dsimp only at h
    split_ifs at h
    injection h with h1
    exact ⟨(congrArg (fun z => z.2.1) h1).symm, (congrArg (fun z => z.2.2) h1).symm⟩

theorem span_digits (ds : List Char) (c0 : Char) (r : List Char)
    (hds : ∀ c ∈ ds, c.isDigit = true) (hc0 : c0.isDigit = false) :
    (ds ++ c0 :: r).span Char.isDigit = (ds, c0 :: r) := by
  induction ds with
  | nil =>
    simp [List.span_eq_take_drop, List.takeWhile_cons, List.dropWhile_cons, hc0]
  | cons d ds ih =>
    have hd : d.isDigit = true := hds d (List.mem_cons_self d ds)
    have ih2 := ih (fun c hc => hds c (List.mem_cons_of_mem d hc))
    rw [List.span_eq_take_drop] at ih2 ⊢
    have h1 := congrArg Prod.fst ih2
    have h2 := congrArg Prod.snd ih2
    dsimp only at h1 h2
    rw [List.cons_append, List.takeWhile_cons, List.dropWhile_cons]
    simp only [hd, if_pos]
    rw [h1, h2]

theorem parseItemLine_cons (t : List Char) :
    parseItemLine (String.mk ('-' :: ' ' :: '*' :: '*' :: '第' :: t)) =
      itemTail t := rfl

theorem parseItemLine_single (ds : List Char) (g : String)
    (hne : ds ≠ []) (hds : ∀ c ∈ ds, c.isDigit = true) (hg : g ≠ "") :
    parseItemLine ("- **第" ++ String.mk ds ++ "章**：" ++ g) =
      some (digitsToNat ds, digitsToNat ds, g) := by
  have hgd : g.data ≠ [] := by
    intro hdd
    exact hg (String.ext hdd)
  have hstr : ("- **第" ++ String.mk ds ++ "章**：" ++ g) =
      String.mk ('-' :: ' ' :: '*' :: '*' :: '第' ::
        (ds ++ '章' :: '*' :: '*' :: '：' :: g.data)) := by
    apply String.ext
    simp [String.data_append]
  rw [hstr, parseItemLine_cons]
  unfold itemTail
  rw [span_digits ds '章' ('*' :: '*' :: '：' :: g.data) hds (by decide)]
  dsimp only
  rw [if_neg hne]
  show (if ('：' = ':' ∨ '：' = '：') ∧ g.data ≠ [] then
    some (digitsToNat ds, digitsToNat ds, String.mk g.data) else none) =
    some (digitsToNat ds, digitsToNat ds, g)
  rw [if_pos ⟨Or.inr rfl, hgd⟩]

/-- C9 counterexample: a per-chapter bullet without an explicit range end
parses with end = start, not an open-ended range: a bullet for chapter 3
yields no goal for chapter 5 while matching chapter 3 itself. -/
theorem open_range_bullet_cex :
    parseItemLine "- **第3章**:目标" = some (3, 3, "目标") ∧
    (parseOutlineForChapter "- **第3章**:目标" 5).specific_goal = "" ∧
    (parseOutlineForChapter "- **第3章**:目标" 3).specific_goal = "目标" := by
  decide

/-- C9 (amended): outline resolution scans lines in order; the first
per-chapter bullet whose range contains the target chapter supplies the
goal (its summary plus following detail lines) and scanning stops, with
the volume/phase accumulated over the preceding lines; if no bullet
matches, the specific goal is empty whatever the headings set; volume and
phase headings without a `（第a-b章）` range chunk default to the open
range (0, 9999); but a per-chapter bullet without an explicit range end
covers only its start chapter. -/
theorem outline_resolution
    (n : Nat) (txt : String) (pre rest : List String) (l : String)
    (a b : Nat) (s : String)
    (hsplit : pySplit (Char.ofNat 10) txt = pre ++ l :: rest)
    (hpre : ∀ raw ∈ pre, itemMatchesFor n raw = false)
    (hitem : parseItemLine (pyStrip l) = some (a, b, s))
    (hin : a ≤ n ∧ n ≤ b) :
    parseOutlineForChapter txt n =
      ⟨(scanOutline n "" "" pre).volume, (scanOutline n "" "" pre).phase,
        itemGoal s rest⟩ ∧
    (∀ (vol phase : String) (raws : List String),
      (∀ raw ∈ raws, itemMatchesFor n raw = false) →
      (scanOutline n vol phase raws).specific_goal = "") ∧
    (∀ (marker t ti : String) (a2 b2 : Nat), '（' ∉ t.data →
      parseHeadingLine marker t = some (ti, a2, b2) → a2 = 0 ∧ b2 = 9999) ∧
    (∀ (ds : List Char) (g : String), ds ≠ [] →
      (∀ c ∈ ds, c.isDigit = true) → g ≠ "" →
      parseItemLine ("- **第" ++ String.mk ds ++ "章**：" ++ g) =
        some (digitsToNat ds, digitsToNat ds, g)) := by
  refine ⟨?_, ?_, ?_, ?_⟩
  · unfold parseOutlineForChapter
    rw [hsplit]
    obtain ⟨v2, p2, h1, h2⟩ := scanOutline_append n (l :: rest) pre "" "" hpre
    rw [h1, scanOutline_first_match n v2 p2 l rest a b s hitem hin, h2]
  · exact fun vol phase raws h => scanOutline_nomatch n raws vol phase h
  · exact fun marker t ti a2 b2 hm h =>
      parseHeadingLine_norange marker t ti a2 b2 hm h
  · exact fun ds g h1 h2 h3 => parseItemLine_single ds g h1 h2 h3

/-- Witness for C9: a heading followed by a chapter-3 bullet with one
detail line resolves chapter 3 to that bullet's goal. -/
theorem outline_resolution_witness :
    parseOutlineForChapter
        "## 第一卷（第1-10章）\n- **第3章**:斩杀心魔\n  - 获得鬼晶" 3 =
      ⟨"第一卷", "", "斩杀心魔\n详情：获得鬼晶"⟩ := by
  have h := outline_resolution 3
    "## 第一卷（第1-10章）\n- **第3章**:斩杀心魔\n  - 获得鬼晶"
    ["## 第一卷（第1-10章）"] ["  - 获得鬼晶"] "- **第3章**:斩杀心魔"
    3 3 "斩杀心魔" (by decide) (by decide) (by decide) (by decide)
  rw [h.1]
  decide

end StoryAgent
